/-
  Verification of the LVM bytecode generator (LVMGenerator.h) of the
  souffle Datalog compiler.  The definitions below are a shallow embedding
  of `RelationEncoder` and `LVMGenerator`: the C++ visitor methods become
  state-passing Lean functions over an explicit `GenState`.  Machine words
  of the emitted stream are modelled by `Word` (an opcode or a signed
  immediate); the append-only code vector is a `List Word`.
-/
import Mathlib

namespace LVM

/-! ## Opcodes of the LVM instruction stream (LVMCode.h enumeration, as
used by LVMGenerator.h).  Only opcodes actually emitted by the generator
are listed. -/

inductive LVMOp where
  | LVM_Number | LVM_TupleElement | LVM_AutoIncrement
  | LVM_OP_ORD | LVM_OP_STRLEN | LVM_OP_NEG | LVM_OP_BNOT | LVM_OP_LNOT
  | LVM_OP_TONUMBER | LVM_OP_TOSTRING
  | LVM_OP_ADD | LVM_OP_SUB | LVM_OP_MUL | LVM_OP_DIV | LVM_OP_EXP | LVM_OP_MOD
  | LVM_OP_BAND | LVM_OP_BOR | LVM_OP_BXOR | LVM_OP_LAND | LVM_OP_LOR
  | LVM_OP_MAX | LVM_OP_MIN | LVM_OP_CAT | LVM_OP_SUBSTR
  | LVM_UserDefinedOperator | LVM_PackRecord | LVM_Argument
  | LVM_True | LVM_False | LVM_Conjunction | LVM_Negation
  | LVM_EmptinessCheck | LVM_ExistenceCheck | LVM_ExistenceCheckOneArg
  | LVM_ContainCheck | LVM_Constraint
  | LVM_OP_EQ | LVM_OP_NE | LVM_OP_LT | LVM_OP_LE | LVM_OP_GT | LVM_OP_GE
  | LVM_OP_MATCH | LVM_OP_NOT_MATCH | LVM_OP_CONTAINS | LVM_OP_NOT_CONTAINS
  | LVM_Search | LVM_Scan | LVM_IndexScan | LVM_Choice | LVM_IndexChoice
  | LVM_UnpackRecord
  | LVM_Aggregate | LVM_IndexAggregate | LVM_Aggregate_COUNT | LVM_Aggregate_Return
  | LVM_ITER_InitFullIndex | LVM_ITER_InitRangeIndex | LVM_ITER_InitRangeIndexOneArg
  | LVM_ITER_NotAtEnd | LVM_ITER_Select | LVM_ITER_Inc
  | LVM_Jmpez | LVM_Jmpnz | LVM_Goto
  | LVM_Filter | LVM_Project | LVM_ReturnValue
  | LVM_Sequence | LVM_Parallel
  | LVM_Loop | LVM_IncIterationNumber | LVM_ResetIterationNumber
  | LVM_LogRelationTimer | LVM_LogTimer | LVM_StopLogTimer
  | LVM_DebugInfo | LVM_Stratum
  | LVM_Create | LVM_Clear | LVM_Drop | LVM_LogSize
  | LVM_Load | LVM_Store | LVM_Fact | LVM_Query | LVM_Merge | LVM_Swap
  | LVM_STOP
deriving DecidableEq, Repr

/-- A word of the emitted stream: an opcode word or an immediate operand
(a signed domain value; relation ids, slot ids, addresses and sizes are
non-negative immediates). -/
inductive Word where
  | op (o : LVMOp)
  | imm (n : Int)
deriving DecidableEq, Repr

/-! ## Constants of RamTypes.h (not part of src/). -/

/-- Modelled from the spec: RamTypes.h is not in the repository slice.
`RAM_DOMAIN_SIZE` is the domain word width in bits ("All stream words
share a single machine-word width equal to the interpreter's domain-value
width"; the RamDomain type is a 32-bit signed integer). -/
def RAM_DOMAIN_SIZE : Nat := 32

/-- Modelled from the spec: the maximum domain value (`min` aggregate seed). -/
def MAX_RAM_DOMAIN : Int := 2147483647

/-- Modelled from the spec: the minimum domain value (`max` aggregate seed). -/
def MIN_RAM_DOMAIN : Int := -2147483648

/-! ## RAM IR node ingredients. -/

/-- Declared physical representation of a RAM relation
(RelationRepresentation, outside src/).  The generator's switch handles
BTREE, BRIE, EQREL and DEFAULT; `INFO` stands for the remaining
enumerators, which fall into the switch's `default:` branch. -/
inductive RelationRepresentation where
  | DEFAULT | BTREE | BRIE | EQREL | INFO
deriving DecidableEq, Repr

/-- The part of a RamRelation consumed by the generator: name (the intern
key), arity, and declared representation.  Attribute-type qualifiers and
the index order set are carried through unchanged by the encoder and are
not modelled. -/
structure RamRelation where
  name : String
  arity : Nat
  representation : RelationRepresentation
deriving DecidableEq, Repr

/-- Intrinsic operators of RamIntrinsicOperator (FunctorOp). -/
inductive FunctorOp where
  | ORD | STRLEN | NEG | BNOT | LNOT | TONUMBER | TOSTRING
  | ADD | SUB | MUL | DIV | EXP | MOD | BAND | BOR | BXOR | LAND | LOR
  | MAX | MIN | CAT | SUBSTR
deriving DecidableEq, Repr

/-- Binary constraint comparators (BinaryConstraintOp). -/
inductive BinaryConstraintOp where
  | EQ | NE | LT | LE | GT | GE | MATCH | NOT_MATCH | CONTAINS | NOT_CONTAINS
deriving DecidableEq, Repr

/-- Aggregate functions (souffle::AggregateFunction). -/
inductive AggFunc where
  | MAX | MIN | COUNT | SUM
deriving DecidableEq, Repr

/-! ## Relation encoder (class RelationEncoder). -/

/-- Kind of the concrete LVMRelation object materialised by
`RelationEncoder::createRelation`.  BTREE and DEFAULT both construct a
plain `LVMRelation` (direct b-tree storage), BRIE constructs an
`LVMRelation` with the brie index factory, EQREL an `LVMEqRelation`, and
over-wide relations an `LVMIndirectRelation`. -/
inductive LVMRelKind where
  | direct | brie | eqrel | indirect
deriving DecidableEq, Repr

/-- Descriptor of an interned relation. -/
structure LVMRelationDesc where
  arity : Nat
  name : String
  kind : LVMRelKind
deriving DecidableEq, Repr

/-- RelationEncoder::MAX_DIRECT_INDEX_SIZE. -/
def MAX_DIRECT_INDEX_SIZE : Nat := 12

/-- RelationEncoder::createRelation.  `none` models the `nullptr`
returned when the declared representation hits the switch's `default:`
branch. -/
def createRelation (rel : RamRelation) : Option LVMRelationDesc :=
  if rel.arity > MAX_DIRECT_INDEX_SIZE then
    some ⟨rel.arity, rel.name, LVMRelKind.indirect⟩
  else
    match rel.representation with
    | RelationRepresentation.BTREE => some ⟨rel.arity, rel.name, LVMRelKind.direct⟩
    | RelationRepresentation.BRIE => some ⟨rel.arity, rel.name, LVMRelKind.brie⟩
    | RelationRepresentation.EQREL => some ⟨rel.arity, rel.name, LVMRelKind.eqrel⟩
    | RelationRepresentation.DEFAULT => some ⟨rel.arity, rel.name, LVMRelKind.direct⟩
    | RelationRepresentation.INFO => none

/-- The mutable state of a RelationEncoder: the name-to-id map
(std::map relNameToIndex, modelled as an association list) and the dense
id-to-descriptor vector (relationMap; entries are `none` where
createRelation returned `nullptr`). -/
structure EncoderState where
  relNameToIndex : List (String × Nat)
  relationMap : List (Option LVMRelationDesc)
deriving DecidableEq, Repr

/-- RelationEncoder::encodeRelation: return the existing id of the
relation's name, or intern it, append its descriptor, and return the new
id (`relNameToIndex.size() - 1` after the insertion). -/
def EncoderState.encodeRelation (st : EncoderState) (rel : RamRelation) :
    Nat × EncoderState :=
  match st.relNameToIndex.find? (fun p => p.1 = rel.name) with
  | some p => (p.2, st)
  | none =>
      let m := st.relNameToIndex ++ [(rel.name, st.relNameToIndex.length)]
      (m.length - 1, ⟨m, st.relationMap ++ [createRelation rel]⟩)

/-- RelationEncoder::decodeRelation: id to descriptor lookup
(`relationMap[relId].get()`; a stored null pointer surfaces as `none`). -/
def EncoderState.decodeRelation (st : EncoderState) (relId : Nat) :
    Option LVMRelationDesc :=
  st.relationMap.getD relId none

/-- RelationEncoder::getSize. -/
def EncoderState.getSize (st : EncoderState) : Nat :=
  st.relationMap.length

/-- The RelationEncoder constructor pre-interns every declared relation. -/
def initEncoder (rels : List RamRelation) : EncoderState :=
  rels.foldl (fun st r => (st.encodeRelation r).2) ⟨[], []⟩

/-! ## Symbol table. -/

/-- Modelled from the spec: SymbolTable (not in src/) is "an interner from
string to integer id"; `lookup` returns the existing id or appends the
string and returns its fresh dense id. -/
structure SymTab where
  syms : List String
deriving DecidableEq, Repr

def SymTab.lookup (t : SymTab) (s : String) : Nat × SymTab :=
  match t.syms.findIdx? (fun x => x = s) with
  | some i => (i, t)
  | none => (t.syms.length, ⟨t.syms ++ [s]⟩)

/-! ## The index-analysis oracle (RamIndexAnalysis, external to the core).
The spec treats `indexesFor`/`getLexOrderNum` as a referentially
transparent external analysis; it is modelled as a pure function from
relation name and (normalised) search signature to the index position. -/

structure IndexOracle where
  lexOrderNum : String → Nat → Nat

/-- LVMGenerator::getIndexPos.  Each IR node that needs an index carries
the oracle's search signature for it (field `sig` below); a zero
signature is normalised to the all-ones full-order mask. -/
def getIndexPos (isa : IndexOracle) (rel : RamRelation) (sig : Nat) : Nat :=
  let signature := if sig = 0 then 2 ^ rel.arity - 1 else sig
  isa.lexOrderNum rel.name signature

/-! ## RAM IR trees.

The four visitable families of LVMGenerator.h: expressions (RamExpression),
conditions (RamCondition), operations (RamOperation) and statements
(RamStatement).  Tuple operations carry their profile text
(RamTupleOperation::getProfileText) and nodes that consult the index
oracle carry their search signature `sig`. -/

inductive RamExpr where
  | Number (constant : Int)
  | TupleElement (tupleId element : Nat)
  | AutoIncrement
  | IntrinsicOperator (fop : FunctorOp) (args : List RamExpr)
  | UserDefinedOperator (name ftype : String) (args : List RamExpr)
  | PackRecord (args : List RamExpr)
  | SubroutineArgument (argNumber : Nat)
  | UndefValue

/-- isRamUndefValue. -/
def isRamUndefValue : RamExpr → Bool
  | RamExpr.UndefValue => true
  | _ => false

inductive RamCond where
  | RTrue
  | RFalse
  | Conjunction (lhs rhs : RamCond)
  | Negation (operand : RamCond)
  | EmptinessCheck (rel : RamRelation)
  | ExistenceCheck (rel : RamRelation) (values : List RamExpr) (sig : Nat)
  | ProvenanceExistenceCheck (rel : RamRelation) (values : List RamExpr) (sig : Nat)
  | Constraint (bop : BinaryConstraintOp) (lhs rhs : RamExpr)

/-- The `dynamic_cast<const RamTrue*>` test used by the aggregate visitors. -/
def isTrueCond : RamCond → Bool
  | RamCond.RTrue => true
  | _ => false

inductive RamOp where
  | Scan (rel : RamRelation) (tupleId : Nat) (profileText : String)
      (nested : RamOp)
  | Choice (rel : RamRelation) (tupleId : Nat) (cond : RamCond)
      (profileText : String) (nested : RamOp)
  | IndexScan (rel : RamRelation) (tupleId : Nat) (patterns : List RamExpr)
      (sig : Nat) (profileText : String) (nested : RamOp)
  | IndexChoice (rel : RamRelation) (tupleId : Nat) (patterns : List RamExpr)
      (sig : Nat) (cond : RamCond) (profileText : String) (nested : RamOp)
  | UnpackRecord (expr : RamExpr) (arity tupleId : Nat) (profileText : String)
      (nested : RamOp)
  | Aggregate (fn : AggFunc) (rel : RamRelation) (expr : RamExpr)
      (cond : RamCond) (tupleId : Nat) (profileText : String) (nested : RamOp)
  | IndexAggregate (fn : AggFunc) (rel : RamRelation) (patterns : List RamExpr)
      (sig : Nat) (expr : RamExpr) (cond : RamCond) (tupleId : Nat)
      (profileText : String) (nested : RamOp)
  | Break (cond : RamCond) (nested : RamOp)
  | Filter (cond : RamCond) (profileText : String) (nested : RamOp)
  | Project (rel : RamRelation) (values : List RamExpr)
  | SubroutineReturnValue (values : List RamExpr)

inductive RamStmt where
  | Sequence (stmts : List RamStmt)
  | Parallel (stmts : List RamStmt)
  | Loop (body : RamStmt)
  | Exit (cond : RamCond)
  | LogRelationTimer (message : String) (rel : RamRelation) (stmt : RamStmt)
  | LogTimer (message : String) (stmt : RamStmt)
  | DebugInfo (message : String) (stmt : RamStmt)
  | Stratum (body : RamStmt)
  | Create (rel : RamRelation)
  | Clear (rel : RamRelation)
  | Drop (rel : RamRelation)
  | LogSize (rel : RamRelation) (message : String)
  | Load (rel : RamRelation) (directives : Nat)
  | Store (rel : RamRelation) (directives : Nat)
  | Fact (rel : RamRelation) (values : List RamExpr)
  | Query (operation : RamOp)
  | Merge (source target : RamRelation)
  | Swap (first second : RamRelation)

/-! ## Generator state (the private fields of LVMGenerator plus the
LVMCode artifact it owns). -/

structure GenState where
  /-- The code stream owned by the LVMCode artifact. -/
  code : List Word
  /-- The I/O-directive sidetable of the LVMCode artifact; directive
  records are opaque tags. -/
  ioDirectives : List Nat
  /-- Dense label allocator. -/
  currentAddressLabel : Nat
  /-- Label id to resolved stream offset (std::vector addressMap). -/
  addressMap : List Nat
  /-- Dense iterator-slot allocator. -/
  iteratorIndex : Nat
  /-- Dense timer-slot allocator. -/
  timerIndex : Nat
  /-- The shared relation encoder. -/
  encoder : EncoderState
  /-- The shared symbol table. -/
  symbolTable : SymTab
deriving DecidableEq, Repr

/-- code->push_back. -/
def push (s : GenState) (w : Word) : GenState :=
  { s with code := s.code ++ [w] }

def pushOp (s : GenState) (o : LVMOp) : GenState := push s (Word.op o)

def pushInt (s : GenState) (n : Int) : GenState := push s (Word.imm n)

def pushNat (s : GenState) (n : Nat) : GenState := push s (Word.imm (Int.ofNat n))

/-- code->size(). -/
def codeSize (s : GenState) : Nat := s.code.length

/-- getNewAddressLabel (the returned label is the counter's old value). -/
def bumpLabel (s : GenState) : GenState :=
  { s with currentAddressLabel := s.currentAddressLabel + 1 }

/-- getNewIterator. -/
def bumpIterator (s : GenState) : GenState :=
  { s with iteratorIndex := s.iteratorIndex + 1 }

/-- getNewTimer. -/
def bumpTimer (s : GenState) : GenState :=
  { s with timerIndex := s.timerIndex + 1 }

/-- lookupAddress: the stored offset, or 0 when the label has no entry
yet (`if (addressLabel < addressMap.size()) return addressMap[addressLabel];
return 0;`). -/
def lookupAddress (s : GenState) (addressLabel : Nat) : Nat :=
  s.addressMap.getD addressLabel 0

/-- setAddress: value-initialising resize to `addressLabel + 1` if needed,
then store. -/
def setAddress (s : GenState) (addressLabel value : Nat) : GenState :=
  let m :=
    if addressLabel < s.addressMap.length then s.addressMap
    else s.addressMap ++ List.replicate (addressLabel + 1 - s.addressMap.length) 0
  { s with addressMap := m.set addressLabel value }

/-- relationEncoder.encodeRelation through the generator state. -/
def encodeRelG (s : GenState) (rel : RamRelation) : Nat × GenState :=
  let p := s.encoder.encodeRelation rel
  (p.1, { s with encoder := p.2 })

/-- symbolTable.lookup through the generator state. -/
def lookupSymG (s : GenState) (str : String) : Nat × GenState :=
  let p := s.symbolTable.lookup str
  (p.1, { s with symbolTable := p.2 })

/-- Appending a load/store directive record to the sidetable. -/
def pushDirective (s : GenState) (d : Nat) : GenState :=
  { s with ioDirectives := s.ioDirectives ++ [d] }

/-! ## Expression lowering (visitNumber .. visitSubroutineArgument).

The intrinsic switch of visitIntrinsicOperator is tabulated by emission
shape: unary/binary/ternary operators emit their arguments in order then
the opcode; MIN/MAX emit arguments in order then opcode and arity word;
CAT emits arguments in reverse order then opcode and arity word. -/

inductive IntrinsicClass where
  | unary (o : LVMOp)
  | binary (o : LVMOp)
  | ternary (o : LVMOp)
  | variadic (o : LVMOp)
  | variadicRev (o : LVMOp)

def intrinsicClass : FunctorOp → IntrinsicClass
  | FunctorOp.ORD => IntrinsicClass.unary LVMOp.LVM_OP_ORD
  | FunctorOp.STRLEN => IntrinsicClass.unary LVMOp.LVM_OP_STRLEN
  | FunctorOp.NEG => IntrinsicClass.unary LVMOp.LVM_OP_NEG
  | FunctorOp.BNOT => IntrinsicClass.unary LVMOp.LVM_OP_BNOT
  | FunctorOp.LNOT => IntrinsicClass.unary LVMOp.LVM_OP_LNOT
  | FunctorOp.TONUMBER => IntrinsicClass.unary LVMOp.LVM_OP_TONUMBER
  | FunctorOp.TOSTRING => IntrinsicClass.unary LVMOp.LVM_OP_TOSTRING
  | FunctorOp.ADD => IntrinsicClass.binary LVMOp.LVM_OP_ADD
  | FunctorOp.SUB => IntrinsicClass.binary LVMOp.LVM_OP_SUB
  | FunctorOp.MUL => IntrinsicClass.binary LVMOp.LVM_OP_MUL
  | FunctorOp.DIV => IntrinsicClass.binary LVMOp.LVM_OP_DIV
  | FunctorOp.EXP => IntrinsicClass.binary LVMOp.LVM_OP_EXP
  | FunctorOp.MOD => IntrinsicClass.binary LVMOp.LVM_OP_MOD
  | FunctorOp.BAND => IntrinsicClass.binary LVMOp.LVM_OP_BAND
  | FunctorOp.BOR => IntrinsicClass.binary LVMOp.LVM_OP_BOR
  | FunctorOp.BXOR => IntrinsicClass.binary LVMOp.LVM_OP_BXOR
  | FunctorOp.LAND => IntrinsicClass.binary LVMOp.LVM_OP_LAND
  | FunctorOp.LOR => IntrinsicClass.binary LVMOp.LVM_OP_LOR
  | FunctorOp.MAX => IntrinsicClass.variadic LVMOp.LVM_OP_MAX
  | FunctorOp.MIN => IntrinsicClass.variadic LVMOp.LVM_OP_MIN
  | FunctorOp.CAT => IntrinsicClass.variadicRev LVMOp.LVM_OP_CAT
  | FunctorOp.SUBSTR => IntrinsicClass.ternary LVMOp.LVM_OP_SUBSTR

mutual

/-- Expression visitors.  visitUndefValue is `assert(false)`; a release
build emits nothing there, and it is unreachable on well-formed IR.
Likewise an intrinsic applied to too few arguments is out-of-bounds
vector access in the C++ and is modelled as emitting nothing. -/
def genExpr : RamExpr → Nat → GenState → GenState
  | RamExpr.Number c, _, s => pushInt (pushOp s LVMOp.LVM_Number) c
  | RamExpr.TupleElement tid el, _, s =>
      pushNat (pushNat (pushOp s LVMOp.LVM_TupleElement) tid) el
  | RamExpr.AutoIncrement, _, s => pushOp s LVMOp.LVM_AutoIncrement
  | RamExpr.IntrinsicOperator fop args, ea, s =>
      match intrinsicClass fop with
      | IntrinsicClass.unary o =>
          match args with
          | a0 :: _ => pushOp (genExpr a0 ea s) o
          | [] => s
      | IntrinsicClass.binary o =>
          match args with
          | a0 :: a1 :: _ => pushOp (genExpr a1 ea (genExpr a0 ea s)) o
          | _ => s
      | IntrinsicClass.ternary o =>
          match args with
          | a0 :: a1 :: a2 :: _ =>
              pushOp (genExpr a2 ea (genExpr a1 ea (genExpr a0 ea s))) o
          | _ => s
      | IntrinsicClass.variadic o =>
          pushNat (pushOp (genExprList args ea s) o) args.length
      | IntrinsicClass.variadicRev o =>
          pushNat (pushOp (genExprListRev args ea s) o) args.length
  | RamExpr.UserDefinedOperator name ftype args, ea, s =>
      let s1 := genExprListRev args ea s
      let s2 := pushOp s1 LVMOp.LVM_UserDefinedOperator
      let p1 := lookupSymG s2 name
      let s3 := pushNat p1.2 p1.1
      let p2 := lookupSymG s3 ftype
      let s4 := pushNat p2.2 p2.1
      pushNat s4 args.length
  | RamExpr.PackRecord args, ea, s =>
      pushNat (pushOp (genExprList args ea s) LVMOp.LVM_PackRecord) args.length
  | RamExpr.SubroutineArgument n, _, s =>
      pushNat (pushOp s LVMOp.LVM_Argument) n
  | RamExpr.UndefValue, _, s => s

/-- Visit a list of expressions in order (`for (auto& arg : args)`). -/
def genExprList : List RamExpr → Nat → GenState → GenState
  | [], _, s => s
  | e :: es, ea, s => genExprList es ea (genExpr e ea s)

/-- Visit a list of expressions in reverse order
(`for (size_t i = n; i-- > 0;) visit(values[i])`). -/
def genExprListRev : List RamExpr → Nat → GenState → GenState
  | [], _, s => s
  | e :: es, ea, s => genExpr e ea (genExprListRev es ea s)

/-- Visit a value/pattern list in reverse order, skipping undefined
entries (the classification loops of the existence checks and indexed
scans). -/
def genPatternRev : List RamExpr → Nat → GenState → GenState
  | [], _, s => s
  | v :: vs, ea, s =>
      let s1 := genPatternRev vs ea s
      if isRamUndefValue v then s1 else genExpr v ea s1

end

/-! ## Type-mask packing (emitExistenceCheckInst / emitRangeIndexInst). -/

/-- The per-column 0/1 type mask (`typeMask[i] = 1` iff column i is bound). -/
def typeMaskOf (values : List RamExpr) : List Nat :=
  values.map (fun v => if isRamUndefValue v then 0 else 1)

/-- One packed mask word: bit j of word i corresponds to column
`i * RAM_DOMAIN_SIZE + j` (the inner `for j` loop; its `break` at
`projectedIndex >= arity` is the guard, as the index grows with j). -/
def packTypeMask (typeMask : List Nat) (arity i : Nat) : Nat :=
  (List.range RAM_DOMAIN_SIZE).foldl
    (fun types j =>
      if i * RAM_DOMAIN_SIZE + j < arity then
        types ||| (typeMask.getD (i * RAM_DOMAIN_SIZE + j) 0 <<< j)
      else types)
    0

/-- `arity / RAM_DOMAIN_SIZE + (arity % RAM_DOMAIN_SIZE != 0)`. -/
def numOfTypeMasks (arity : Nat) : Nat :=
  arity / RAM_DOMAIN_SIZE + (if arity % RAM_DOMAIN_SIZE ≠ 0 then 1 else 0)

/-- The packed mask words of an instruction, in order. -/
def maskWords (typeMask : List Nat) (arity : Nat) : List Word :=
  (List.range (numOfTypeMasks arity)).map
    (fun i => Word.imm (Int.ofNat (packTypeMask typeMask arity i)))

/-- LVMGenerator::emitExistenceCheckInst. -/
def emitExistenceCheckInst (s : GenState) (arity relId indexPos : Nat)
    (typeMask : List Nat) : GenState :=
  let s1 :=
    if numOfTypeMasks arity = 1 then pushOp s LVMOp.LVM_ExistenceCheckOneArg
    else pushOp s LVMOp.LVM_ExistenceCheck
  let s2 := pushNat (pushNat s1 relId) indexPos
  (List.range (numOfTypeMasks arity)).foldl
    (fun t i => pushNat t (packTypeMask typeMask arity i)) s2

/-- LVMGenerator::emitRangeIndexInst. -/
def emitRangeIndexInst (s : GenState) (arity relId indexPos counterLabel : Nat)
    (typeMask : List Nat) : GenState :=
  let s1 :=
    if numOfTypeMasks arity = 1 then pushOp s LVMOp.LVM_ITER_InitRangeIndexOneArg
    else pushOp s LVMOp.LVM_ITER_InitRangeIndex
  let s2 := pushNat (pushNat (pushNat s1 counterLabel) relId) indexPos
  (List.range (numOfTypeMasks arity)).foldl
    (fun t i => pushNat t (packTypeMask typeMask arity i)) s2

/-! ## Condition lowering. -/

/-- The comparator table of visitConstraint. -/
def constraintOpcode : BinaryConstraintOp → LVMOp
  | BinaryConstraintOp.EQ => LVMOp.LVM_OP_EQ
  | BinaryConstraintOp.NE => LVMOp.LVM_OP_NE
  | BinaryConstraintOp.LT => LVMOp.LVM_OP_LT
  | BinaryConstraintOp.LE => LVMOp.LVM_OP_LE
  | BinaryConstraintOp.GT => LVMOp.LVM_OP_GT
  | BinaryConstraintOp.GE => LVMOp.LVM_OP_GE
  | BinaryConstraintOp.MATCH => LVMOp.LVM_OP_MATCH
  | BinaryConstraintOp.NOT_MATCH => LVMOp.LVM_OP_NOT_MATCH
  | BinaryConstraintOp.CONTAINS => LVMOp.LVM_OP_CONTAINS
  | BinaryConstraintOp.NOT_CONTAINS => LVMOp.LVM_OP_NOT_CONTAINS

/-- Condition visitors.  In the existence checks the relation id is
interned before the classification loop runs (as in the source), the
loop's `emptinessCheck` flag is `values.all isRamUndefValue`, and its
`fullExistenceCheck` flag is `values.all (not undefined)`; the value list
is assumed to have one entry per column.  The provenance variant runs its
loop only over columns `0 .. arity-3` (`for (size_t i = arity - 2; i-- > 0;)`)
and can never take the full-order branch. -/
def genCond (isa : IndexOracle) : RamCond → Nat → GenState → GenState
  | RamCond.RTrue, _, s => pushOp s LVMOp.LVM_True
  | RamCond.RFalse, _, s => pushOp s LVMOp.LVM_False
  | RamCond.Conjunction lhs rhs, ea, s =>
      pushOp (genCond isa rhs ea (genCond isa lhs ea s)) LVMOp.LVM_Conjunction
  | RamCond.Negation c, ea, s => pushOp (genCond isa c ea s) LVMOp.LVM_Negation
  | RamCond.EmptinessCheck rel, _, s =>
      let s1 := pushOp s LVMOp.LVM_EmptinessCheck
      let p := encodeRelG s1 rel
      pushNat p.2 p.1
  | RamCond.ExistenceCheck rel values sg, ea, s =>
      let p := encodeRelG s rel
      let relId := p.1
      let s1 := genPatternRev values ea p.2
      if values.all isRamUndefValue then
        pushOp (pushNat (pushOp s1 LVMOp.LVM_EmptinessCheck) relId)
          LVMOp.LVM_Negation
      else if values.all (fun v => !isRamUndefValue v) then
        pushNat (pushOp s1 LVMOp.LVM_ContainCheck) relId
      else
        emitExistenceCheckInst s1 rel.arity relId (getIndexPos isa rel sg)
          (typeMaskOf values)
  | RamCond.ProvenanceExistenceCheck rel values sg, ea, s =>
      let p := encodeRelG s rel
      let relId := p.1
      let vals := values.take (rel.arity - 2)
      let s1 := genPatternRev vals ea p.2
      if vals.all isRamUndefValue then
        pushOp (pushNat (pushOp s1 LVMOp.LVM_EmptinessCheck) relId)
          LVMOp.LVM_Negation
      else
        emitExistenceCheckInst s1 rel.arity relId (getIndexPos isa rel sg)
          (typeMaskOf vals ++ List.replicate (rel.arity - (rel.arity - 2)) 0)
  | RamCond.Constraint bop lhs rhs, ea, s =>
      let s1 := pushOp s LVMOp.LVM_Constraint
      let s2 := genExpr rhs ea (genExpr lhs ea s1)
      pushOp s2 (constraintOpcode bop)

/-! ## Operation lowering. -/

/-- The LVM_Search prelude of visitTupleOperation (the nested operation
itself is visited by the caller, after this prelude). -/
def searchHeader (s : GenState) (profileText : String) : GenState :=
  let s1 := pushOp s LVMOp.LVM_Search
  let s2 := pushNat s1 (if profileText.isEmpty then 0 else 1)
  let p := lookupSymG s2 profileText
  pushNat p.2 p.1

/-- Accumulator initialisation of the aggregate loop (the first
`switch (aggregate.getFunction())`). -/
def aggSeed (fn : AggFunc) (s : GenState) : GenState :=
  match fn with
  | AggFunc.MIN => pushInt (pushOp s LVMOp.LVM_Number) MAX_RAM_DOMAIN
  | AggFunc.MAX => pushInt (pushOp s LVMOp.LVM_Number) MIN_RAM_DOMAIN
  | AggFunc.COUNT => pushInt (pushOp s LVMOp.LVM_Number) 0
  | AggFunc.SUM => pushInt (pushOp s LVMOp.LVM_Number) 0

/-- Accumulator update of the aggregate loop (the second
`switch (aggregate.getFunction())`). -/
def aggStep (fn : AggFunc) (s : GenState) : GenState :=
  match fn with
  | AggFunc.MIN => pushNat (pushOp s LVMOp.LVM_OP_MIN) 2
  | AggFunc.MAX => pushNat (pushOp s LVMOp.LVM_OP_MAX) 2
  | AggFunc.COUNT =>
      pushOp (pushInt (pushOp s LVMOp.LVM_Number) 1) LVMOp.LVM_OP_ADD
  | AggFunc.SUM => pushOp s LVMOp.LVM_OP_ADD

/-- The non-fast-path aggregate loop: seed, iteration skeleton, optional
condition gate, optional expression, accumulator update, and the
Inc/Goto back-jump. -/
def aggLoop (isa : IndexOracle) (fn : AggFunc) (expr : RamExpr)
    (cond : RamCond) (tid counterLabel L1 exitAddress : Nat)
    (s : GenState) : GenState :=
  let t1 := aggSeed fn s
  let address_L0 := codeSize t1
  let t2 := pushNat (pushOp t1 LVMOp.LVM_ITER_NotAtEnd) counterLabel
  let t3 := pushNat (pushOp t2 LVMOp.LVM_Jmpez) (lookupAddress t2 L1)
  let t4 := pushNat (pushNat (pushOp t3 LVMOp.LVM_ITER_Select) counterLabel) tid
  let endOfLoop := t4.currentAddressLabel
  let t5 := bumpLabel t4
  let t6 :=
    if isTrueCond cond then t5
    else
      let u := genCond isa cond exitAddress t5
      pushNat (pushOp u LVMOp.LVM_Jmpez) (lookupAddress u endOfLoop)
  let t7 := if fn = AggFunc.COUNT then t6 else genExpr expr exitAddress t6
  let t8 := aggStep fn t7
  let t9 := setAddress t8 endOfLoop (codeSize t8)
  pushNat (pushOp (pushNat (pushOp t9 LVMOp.LVM_ITER_Inc) counterLabel)
    LVMOp.LVM_Goto) address_L0

/-- The MIN/MAX "does a result exist" test emitted after
LVM_Aggregate_Return: reload the written tuple slot, compare with the
seed, and jump past the nested operation if they are equal. -/
def aggGuard (fn : AggFunc) (tid L2 : Nat) (s : GenState) : GenState :=
  let u1 := pushNat (pushNat (pushOp s LVMOp.LVM_TupleElement) tid) 0
  let u2 := pushOp u1 LVMOp.LVM_Number
  let u3 := pushInt u2
    (if fn = AggFunc.MIN then MAX_RAM_DOMAIN else MIN_RAM_DOMAIN)
  let u4 := pushOp u3 LVMOp.LVM_OP_EQ
  pushNat (pushOp u4 LVMOp.LVM_Jmpnz) (lookupAddress u4 L2)

set_option maxHeartbeats 1600000 in
mutual

def genOp (isa : IndexOracle) : RamOp → Nat → GenState → GenState
  | RamOp.Scan rel tid ptext nested, _, s =>
      let s1 := pushOp s LVMOp.LVM_Scan
      let counterLabel := s1.iteratorIndex
      let s2 := bumpLabel (bumpIterator s1)
      let L1 := s2.currentAddressLabel - 1
      let s3 := pushNat (pushOp s2 LVMOp.LVM_ITER_InitFullIndex) counterLabel
      let p := encodeRelG s3 rel
      let s4 := pushNat p.2 p.1
      let address_L0 := codeSize s4
      let s5 := pushNat (pushOp s4 LVMOp.LVM_ITER_NotAtEnd) counterLabel
      let s6 := pushNat (pushOp s5 LVMOp.LVM_Jmpez) (lookupAddress s5 L1)
      let s7 := pushNat (pushNat (pushOp s6 LVMOp.LVM_ITER_Select) counterLabel) tid
      let s8 := genOp isa nested (lookupAddress s7 L1) (searchHeader s7 ptext)
      let s9 := pushNat (pushOp s8 LVMOp.LVM_ITER_Inc) counterLabel
      let s10 := pushNat (pushOp s9 LVMOp.LVM_Goto) address_L0
      setAddress s10 L1 (codeSize s10)
  | RamOp.Choice rel tid cond ptext nested, exitAddress, s =>
      let s1 := pushOp s LVMOp.LVM_Choice
      let counterLabel := s1.iteratorIndex
      let s2 := bumpLabel (bumpLabel (bumpIterator s1))
      let L1 := s2.currentAddressLabel - 2
      let L2 := s2.currentAddressLabel - 1
      let s3 := pushNat (pushOp s2 LVMOp.LVM_ITER_InitFullIndex) counterLabel
      let p := encodeRelG s3 rel
      let s4 := pushNat p.2 p.1
      let address_L0 := codeSize s4
      let s5 := pushNat (pushOp s4 LVMOp.LVM_ITER_NotAtEnd) counterLabel
      let s6 := pushNat (pushOp s5 LVMOp.LVM_Jmpez) (lookupAddress s5 L2)
      let s7 := pushNat (pushNat (pushOp s6 LVMOp.LVM_ITER_Select) counterLabel) tid
      let s8 := genCond isa cond exitAddress s7
      let s9 := pushNat (pushOp s8 LVMOp.LVM_Jmpnz) (lookupAddress s8 L1)
      let s10 := pushNat (pushOp s9 LVMOp.LVM_ITER_Inc) counterLabel
      let s11 := pushNat (pushOp s10 LVMOp.LVM_Goto) address_L0
      let s12 := setAddress s11 L1 (codeSize s11)
      let s13 := genOp isa nested exitAddress (searchHeader s12 ptext)
      setAddress s13 L2 (codeSize s13)
  | RamOp.IndexScan rel tid patterns sg ptext nested, ea, s =>
      let s1 := pushOp s LVMOp.LVM_IndexScan
      let counterLabel := s1.iteratorIndex
      let s2 := bumpLabel (bumpIterator s1)
      let L1 := s2.currentAddressLabel - 1
      let p := encodeRelG s2 rel
      let relId := p.1
      let s3 := genPatternRev patterns ea p.2
      let s4 :=
        if patterns.all isRamUndefValue then
          pushNat (pushNat (pushOp s3 LVMOp.LVM_ITER_InitFullIndex) counterLabel) relId
        else
          emitRangeIndexInst s3 rel.arity relId (getIndexPos isa rel sg)
            counterLabel (typeMaskOf patterns)
      let address_L0 := codeSize s4
      let s5 := pushNat (pushOp s4 LVMOp.LVM_ITER_NotAtEnd) counterLabel
      let s6 := pushNat (pushOp s5 LVMOp.LVM_Jmpez) (lookupAddress s5 L1)
      let s7 := pushNat (pushNat (pushOp s6 LVMOp.LVM_ITER_Select) counterLabel) tid
      let s8 := genOp isa nested (lookupAddress s7 L1) (searchHeader s7 ptext)
      let s9 := pushNat (pushOp s8 LVMOp.LVM_ITER_Inc) counterLabel
      let s10 := pushNat (pushOp s9 LVMOp.LVM_Goto) address_L0
      setAddress s10 L1 (codeSize s10)
  | RamOp.IndexChoice rel tid patterns sg cond ptext nested, exitAddress, s =>
      let s1 := pushOp s LVMOp.LVM_IndexChoice
      let counterLabel := s1.iteratorIndex
      let s2 := bumpLabel (bumpLabel (bumpIterator s1))
      let L1 := s2.currentAddressLabel - 2
      let L2 := s2.currentAddressLabel - 1
      let p := encodeRelG s2 rel
      let relId := p.1
      let s3 := genPatternRev patterns exitAddress p.2
      let s4 :=
        if patterns.all isRamUndefValue then
          pushNat (pushNat (pushOp s3 LVMOp.LVM_ITER_InitFullIndex) counterLabel) relId
        else
          emitRangeIndexInst s3 rel.arity relId (getIndexPos isa rel sg)
            counterLabel (typeMaskOf patterns)
      let address_L0 := codeSize s4
      let s5 := pushNat (pushOp s4 LVMOp.LVM_ITER_NotAtEnd) counterLabel
      let s6 := pushNat (pushOp s5 LVMOp.LVM_Jmpez) (lookupAddress s5 L2)
      let s7 := pushNat (pushNat (pushOp s6 LVMOp.LVM_ITER_Select) counterLabel) tid
      let s8 := genCond isa cond exitAddress s7
      let s9 := pushNat (pushOp s8 LVMOp.LVM_Jmpnz) (lookupAddress s8 L1)
      let s10 := pushNat (pushOp s9 LVMOp.LVM_ITER_Inc) counterLabel
      let s11 := pushNat (pushOp s10 LVMOp.LVM_Goto) address_L0
      let s12 := setAddress s11 L1 (codeSize s11)
      let s13 := genOp isa nested exitAddress (searchHeader s12 ptext)
      setAddress s13 L2 (codeSize s13)
  | RamOp.UnpackRecord expr arity tid ptext nested, exitAddress, s =>
      let s1 := genExpr expr exitAddress s
      let s2 := pushOp s1 LVMOp.LVM_UnpackRecord
      let L0 := s2.currentAddressLabel
      let s3 := bumpLabel s2
      let s4 := pushNat (pushNat s3 arity) tid
      let s5 := pushNat s4 (lookupAddress s4 L0)
      let s6 := genOp isa nested exitAddress (searchHeader s5 ptext)
      setAddress s6 L0 (codeSize s6)
  | RamOp.Aggregate fn rel expr cond tid ptext nested, exitAddress, s =>
      let s1 := pushOp s LVMOp.LVM_Aggregate
      let counterLabel := s1.iteratorIndex
      let s2 := bumpLabel (bumpLabel (bumpIterator s1))
      let L1 := s2.currentAddressLabel - 2
      let L2 := s2.currentAddressLabel - 1
      let s3 := pushNat (pushOp s2 LVMOp.LVM_ITER_InitFullIndex) counterLabel
      let p := encodeRelG s3 rel
      let s4 := pushNat p.2 p.1
      genAggKernel isa fn expr cond tid ptext nested counterLabel L1 L2
        exitAddress s4
  | RamOp.IndexAggregate fn rel patterns sg expr cond tid ptext nested,
      exitAddress, s =>
      let s1 := pushOp s LVMOp.LVM_IndexAggregate
      let counterLabel := s1.iteratorIndex
      let s2 := bumpLabel (bumpLabel (bumpIterator s1))
      let L1 := s2.currentAddressLabel - 2
      let L2 := s2.currentAddressLabel - 1
      let p := encodeRelG s2 rel
      let relId := p.1
      let s3 := genPatternRev patterns exitAddress p.2
      let s4 :=
        if patterns.all isRamUndefValue then
          pushNat (pushNat (pushOp s3 LVMOp.LVM_ITER_InitFullIndex) counterLabel) relId
        else
          emitRangeIndexInst s3 rel.arity relId (getIndexPos isa rel sg)
            counterLabel (typeMaskOf patterns)
      genAggKernel isa fn expr cond tid ptext nested counterLabel L1 L2
        exitAddress s4
  | RamOp.Break cond nested, exitAddress, s =>
      let s1 := genCond isa cond exitAddress s
      let s2 := pushNat (pushOp s1 LVMOp.LVM_Jmpnz) exitAddress
      genOp isa nested exitAddress s2
  | RamOp.Filter cond ptext nested, exitAddress, s =>
      let s1 := pushOp s LVMOp.LVM_Filter
      let p := lookupSymG s1 ptext
      let s2 := pushNat p.2 p.1
      let L0 := s2.currentAddressLabel
      let s3 := bumpLabel s2
      let s4 := genCond isa cond exitAddress s3
      let s5 := pushNat (pushOp s4 LVMOp.LVM_Jmpez) (lookupAddress s4 L0)
      let s6 := genOp isa nested exitAddress s5
      setAddress s6 L0 (codeSize s6)
  | RamOp.Project rel values, exitAddress, s =>
      let s1 := genExprListRev values exitAddress s
      let s2 := pushNat (pushOp s1 LVMOp.LVM_Project) rel.arity
      let p := encodeRelG s2 rel
      pushNat p.2 p.1
  | RamOp.SubroutineReturnValue values, exitAddress, s =>
      let types := String.mk
        (values.reverse.map (fun v => if isRamUndefValue v then '_' else 'V'))
      let s1 := genPatternRev values exitAddress s
      let s2 := pushNat (pushOp s1 LVMOp.LVM_ReturnValue) values.length
      let p := lookupSymG s2 types
      pushNat p.2 p.1
termination_by o _ _ => 2 * sizeOf o

/-- The common tail of visitAggregate / visitIndexAggregate, from the
COUNT fast-path test to the closing setAddress(L2).  The source
duplicates this block verbatim in the two visitors; here it is split into
its blocks `aggSeed` (accumulator initialisation), `aggLoop` (the whole
non-fast-path loop), and `aggGuard` (the MIN/MAX no-match test). -/
def genAggKernel (isa : IndexOracle) (fn : AggFunc) (expr : RamExpr)
    (cond : RamCond) (tid : Nat) (ptext : String) (nested : RamOp)
    (counterLabel L1 L2 exitAddress : Nat) (s : GenState) : GenState :=
  let s1 :=
    if fn = AggFunc.COUNT ∧ isTrueCond cond then
      pushNat (pushOp s LVMOp.LVM_Aggregate_COUNT) counterLabel
    else
      aggLoop isa fn expr cond tid counterLabel L1 exitAddress s
  let s2 := setAddress s1 L1 (codeSize s1)
  let s3 := pushNat (pushOp s2 LVMOp.LVM_Aggregate_Return) tid
  let s4 := if fn = AggFunc.MIN ∨ fn = AggFunc.MAX then aggGuard fn tid L2 s3 else s3
  let s5 := genOp isa nested exitAddress (searchHeader s4 ptext)
  setAddress s5 L2 (codeSize s5)
termination_by 2 * sizeOf nested + 1

end

/-! ## Statement lowering. -/

mutual

def genStmt (isa : IndexOracle) : RamStmt → Nat → GenState → GenState
  | RamStmt.Sequence stmts, ea, s =>
      genStmtList isa stmts ea (pushOp s LVMOp.LVM_Sequence)
  | RamStmt.Parallel stmts, ea, s =>
      -- visitParallel: the guard `if (size == 1 || true)` is constant-true,
      -- so every parallel statement is serialised exactly like a child
      -- sequence (no LVM_Parallel opcode); the fork scaffolding after the
      -- early return is dead code.
      genStmtList isa stmts ea s
  | RamStmt.Loop body, _, s =>
      let address_L0 := codeSize s
      let s1 := pushOp s LVMOp.LVM_Loop
      let L1 := s1.currentAddressLabel
      let s2 := bumpLabel s1
      let address_L1 := lookupAddress s2 L1
      let s3 := genStmt isa body address_L1 s2
      let s4 := pushOp s3 LVMOp.LVM_IncIterationNumber
      let s5 := pushNat (pushOp s4 LVMOp.LVM_Goto) address_L0
      let s6 := pushOp s5 LVMOp.LVM_ResetIterationNumber
      setAddress s6 L1 (codeSize s6)
  | RamStmt.Exit cond, exitAddress, s =>
      pushNat (pushOp (genCond isa cond exitAddress s) LVMOp.LVM_Jmpnz)
        exitAddress
  | RamStmt.LogRelationTimer msg rel stmt, ea, s =>
      let s1 := pushOp s LVMOp.LVM_LogRelationTimer
      let timerIdx := s1.timerIndex
      let s2 := bumpTimer s1
      let p := lookupSymG s2 msg
      let s3 := pushNat (pushNat p.2 p.1) timerIdx
      let q := encodeRelG s3 rel
      let s4 := pushNat q.2 q.1
      let s5 := genStmt isa stmt ea s4
      pushNat (pushOp s5 LVMOp.LVM_StopLogTimer) timerIdx
  | RamStmt.LogTimer msg stmt, ea, s =>
      let s1 := pushOp s LVMOp.LVM_LogTimer
      let timerIdx := s1.timerIndex
      let s2 := bumpTimer s1
      let p := lookupSymG s2 msg
      let s3 := pushNat (pushNat p.2 p.1) timerIdx
      let s4 := genStmt isa stmt ea s3
      pushNat (pushOp s4 LVMOp.LVM_StopLogTimer) timerIdx
  | RamStmt.DebugInfo msg stmt, ea, s =>
      let s1 := pushOp s LVMOp.LVM_DebugInfo
      let p := lookupSymG s1 msg
      genStmt isa stmt ea (pushNat p.2 p.1)
  | RamStmt.Stratum body, ea, s =>
      genStmt isa body ea (pushOp s LVMOp.LVM_Stratum)
  | RamStmt.Create rel, _, s =>
      let s1 := pushOp s LVMOp.LVM_Create
      let p := encodeRelG s1 rel
      pushNat p.2 p.1
  | RamStmt.Clear rel, _, s =>
      let s1 := pushOp s LVMOp.LVM_Clear
      let p := encodeRelG s1 rel
      pushNat p.2 p.1
  | RamStmt.Drop rel, _, s =>
      let s1 := pushOp s LVMOp.LVM_Drop
      let p := encodeRelG s1 rel
      pushNat p.2 p.1
  | RamStmt.LogSize rel msg, _, s =>
      let s1 := pushOp s LVMOp.LVM_LogSize
      let p := encodeRelG s1 rel
      let s2 := pushNat p.2 p.1
      let q := lookupSymG s2 msg
      pushNat q.2 q.1
  | RamStmt.Load rel dir, _, s =>
      let s1 := pushOp s LVMOp.LVM_Load
      let p := encodeRelG s1 rel
      let s2 := pushDirective (pushNat p.2 p.1) dir
      pushNat s2 (s2.ioDirectives.length - 1)
  | RamStmt.Store rel dir, _, s =>
      let s1 := pushOp s LVMOp.LVM_Store
      let p := encodeRelG s1 rel
      let s2 := pushDirective (pushNat p.2 p.1) dir
      pushNat s2 (s2.ioDirectives.length - 1)
  | RamStmt.Fact rel values, ea, s =>
      let s1 := genExprListRev values ea s
      let s2 := pushOp s1 LVMOp.LVM_Fact
      let p := encodeRelG s2 rel
      pushNat (pushNat p.2 p.1) rel.arity
  | RamStmt.Query op, ea, s =>
      genOp isa op ea (pushOp s LVMOp.LVM_Query)
  | RamStmt.Merge source target, _, s =>
      let s1 := pushOp s LVMOp.LVM_Merge
      let p := encodeRelG s1 source
      let s2 := pushNat p.2 p.1
      let q := encodeRelG s2 target
      pushNat q.2 q.1
  | RamStmt.Swap first second, _, s =>
      let s1 := pushOp s LVMOp.LVM_Swap
      let p := encodeRelG s1 first
      let s2 := pushNat p.2 p.1
      let q := encodeRelG s2 second
      pushNat q.2 q.1

def genStmtList (isa : IndexOracle) : List RamStmt → Nat → GenState → GenState
  | [], _, s => s
  | st :: sts, ea, s => genStmtList isa sts ea (genStmt isa st ea s)

end

/-! ## The two-pass constructor. -/

/-- LVMGenerator::cleanUp: clear the stream, the I/O sidetable and the
three dense allocators; the addressMap (and the shared encoder and symbol
table) survive. -/
def cleanUp (s : GenState) : GenState :=
  { s with code := [], ioDirectives := [],
           currentAddressLabel := 0, iteratorIndex := 0, timerIndex := 0 }

/-- Fresh generator state over a (pre-seeded) encoder and symbol table. -/
def initState (enc : EncoderState) (sym : SymTab) : GenState :=
  ⟨[], [], 0, [], 0, 0, enc, sym⟩

/-- The constructor's first traversal: `(*this)(entry, 0)`. -/
def generatorPass1 (isa : IndexOracle) (entry : RamStmt) (enc : EncoderState)
    (sym : SymTab) : GenState :=
  genStmt isa entry 0 (initState enc sym)

/-- The constructor's second traversal, after cleanUp. -/
def generatorPass2 (isa : IndexOracle) (entry : RamStmt) (enc : EncoderState)
    (sym : SymTab) : GenState :=
  genStmt isa entry 0 (cleanUp (generatorPass1 isa entry enc sym))

/-- The whole constructor: two traversals and the terminal stop word. -/
def runGenerator (isa : IndexOracle) (entry : RamStmt) (enc : EncoderState)
    (sym : SymTab) : GenState :=
  pushOp (generatorPass2 isa entry enc sym) LVMOp.LVM_STOP

/-! ## Basic state lemmas. -/

@[simp] theorem push_code (s : GenState) (w : Word) :
    (push s w).code = s.code ++ [w] := rfl

@[simp] theorem push_ioDirectives (s : GenState) (w : Word) :
    (push s w).ioDirectives = s.ioDirectives := rfl

@[simp] theorem push_currentAddressLabel (s : GenState) (w : Word) :
    (push s w).currentAddressLabel = s.currentAddressLabel := rfl

@[simp] theorem push_addressMap (s : GenState) (w : Word) :
    (push s w).addressMap = s.addressMap := rfl

@[simp] theorem push_iteratorIndex (s : GenState) (w : Word) :
    (push s w).iteratorIndex = s.iteratorIndex := rfl

@[simp] theorem push_timerIndex (s : GenState) (w : Word) :
    (push s w).timerIndex = s.timerIndex := rfl

@[simp] theorem push_encoder (s : GenState) (w : Word) :
    (push s w).encoder = s.encoder := rfl

@[simp] theorem push_symbolTable (s : GenState) (w : Word) :
    (push s w).symbolTable = s.symbolTable := rfl

@[simp] theorem pushOp_eq (s : GenState) (o : LVMOp) :
    pushOp s o = push s (Word.op o) := rfl

@[simp] theorem pushInt_eq (s : GenState) (n : Int) :
    pushInt s n = push s (Word.imm n) := rfl

@[simp] theorem pushNat_eq (s : GenState) (n : Nat) :
    pushNat s n = push s (Word.imm (Int.ofNat n)) := rfl

@[simp] theorem bumpLabel_code (s : GenState) : (bumpLabel s).code = s.code := rfl

@[simp] theorem bumpLabel_ioDirectives (s : GenState) :
    (bumpLabel s).ioDirectives = s.ioDirectives := rfl

@[simp] theorem bumpLabel_currentAddressLabel (s : GenState) :
    (bumpLabel s).currentAddressLabel = s.currentAddressLabel + 1 := rfl

@[simp] theorem bumpLabel_addressMap (s : GenState) :
    (bumpLabel s).addressMap = s.addressMap := rfl

@[simp] theorem bumpLabel_iteratorIndex (s : GenState) :
    (bumpLabel s).iteratorIndex = s.iteratorIndex := rfl

@[simp] theorem bumpLabel_timerIndex (s : GenState) :
    (bumpLabel s).timerIndex = s.timerIndex := rfl

@[simp] theorem bumpLabel_encoder (s : GenState) :
    (bumpLabel s).encoder = s.encoder := rfl

@[simp] theorem bumpLabel_symbolTable (s : GenState) :
    (bumpLabel s).symbolTable = s.symbolTable := rfl

@[simp] theorem bumpIterator_code (s : GenState) : (bumpIterator s).code = s.code := rfl

@[simp] theorem bumpIterator_ioDirectives (s : GenState) :
    (bumpIterator s).ioDirectives = s.ioDirectives := rfl

@[simp] theorem bumpIterator_currentAddressLabel (s : GenState) :
    (bumpIterator s).currentAddressLabel = s.currentAddressLabel := rfl

@[simp] theorem bumpIterator_addressMap (s : GenState) :
    (bumpIterator s).addressMap = s.addressMap := rfl

@[simp] theorem bumpIterator_iteratorIndex (s : GenState) :
    (bumpIterator s).iteratorIndex = s.iteratorIndex + 1 := rfl

@[simp] theorem bumpIterator_timerIndex (s : GenState) :
    (bumpIterator s).timerIndex = s.timerIndex := rfl

@[simp] theorem bumpIterator_encoder (s : GenState) :
    (bumpIterator s).encoder = s.encoder := rfl

@[simp] theorem bumpIterator_symbolTable (s : GenState) :
    (bumpIterator s).symbolTable = s.symbolTable := rfl

@[simp] theorem bumpTimer_code (s : GenState) : (bumpTimer s).code = s.code := rfl

@[simp] theorem bumpTimer_ioDirectives (s : GenState) :
    (bumpTimer s).ioDirectives = s.ioDirectives := rfl

@[simp] theorem bumpTimer_currentAddressLabel (s : GenState) :
    (bumpTimer s).currentAddressLabel = s.currentAddressLabel := rfl

@[simp] theorem bumpTimer_addressMap (s : GenState) :
    (bumpTimer s).addressMap = s.addressMap := rfl

@[simp] theorem bumpTimer_iteratorIndex (s : GenState) :
    (bumpTimer s).iteratorIndex = s.iteratorIndex := rfl

@[simp] theorem bumpTimer_timerIndex (s : GenState) :
    (bumpTimer s).timerIndex = s.timerIndex + 1 := rfl

@[simp] theorem bumpTimer_encoder (s : GenState) :
    (bumpTimer s).encoder = s.encoder := rfl

@[simp] theorem bumpTimer_symbolTable (s : GenState) :
    (bumpTimer s).symbolTable = s.symbolTable := rfl

@[simp] theorem setAddress_code (s : GenState) (l v : Nat) :
    (setAddress s l v).code = s.code := rfl

@[simp] theorem setAddress_ioDirectives (s : GenState) (l v : Nat) :
    (setAddress s l v).ioDirectives = s.ioDirectives := rfl

@[simp] theorem setAddress_currentAddressLabel (s : GenState) (l v : Nat) :
    (setAddress s l v).currentAddressLabel = s.currentAddressLabel := rfl

@[simp] theorem setAddress_iteratorIndex (s : GenState) (l v : Nat) :
    (setAddress s l v).iteratorIndex = s.iteratorIndex := rfl

@[simp] theorem setAddress_timerIndex (s : GenState) (l v : Nat) :
    (setAddress s l v).timerIndex = s.timerIndex := rfl

@[simp] theorem setAddress_encoder (s : GenState) (l v : Nat) :
    (setAddress s l v).encoder = s.encoder := rfl

@[simp] theorem setAddress_symbolTable (s : GenState) (l v : Nat) :
    (setAddress s l v).symbolTable = s.symbolTable := rfl

@[simp] theorem encodeRelG_snd_code (s : GenState) (rel : RamRelation) :
    (encodeRelG s rel).2.code = s.code := rfl

@[simp] theorem encodeRelG_snd_ioDirectives (s : GenState) (rel : RamRelation) :
    (encodeRelG s rel).2.ioDirectives = s.ioDirectives := rfl

@[simp] theorem encodeRelG_snd_currentAddressLabel (s : GenState) (rel : RamRelation) :
    (encodeRelG s rel).2.currentAddressLabel = s.currentAddressLabel := rfl

@[simp] theorem encodeRelG_snd_addressMap (s : GenState) (rel : RamRelation) :
    (encodeRelG s rel).2.addressMap = s.addressMap := rfl

@[simp] theorem encodeRelG_snd_iteratorIndex (s : GenState) (rel : RamRelation) :
    (encodeRelG s rel).2.iteratorIndex = s.iteratorIndex := rfl

@[simp] theorem encodeRelG_snd_timerIndex (s : GenState) (rel : RamRelation) :
    (encodeRelG s rel).2.timerIndex = s.timerIndex := rfl

@[simp] theorem encodeRelG_snd_symbolTable (s : GenState) (rel : RamRelation) :
    (encodeRelG s rel).2.symbolTable = s.symbolTable := rfl

@[simp] theorem encodeRelG_fst (s : GenState) (rel : RamRelation) :
    (encodeRelG s rel).1 = (s.encoder.encodeRelation rel).1 := rfl

@[simp] theorem encodeRelG_snd_encoder (s : GenState) (rel : RamRelation) :
    (encodeRelG s rel).2.encoder = (s.encoder.encodeRelation rel).2 := rfl

@[simp] theorem lookupSymG_snd_code (s : GenState) (str : String) :
    (lookupSymG s str).2.code = s.code := rfl

@[simp] theorem lookupSymG_snd_ioDirectives (s : GenState) (str : String) :
    (lookupSymG s str).2.ioDirectives = s.ioDirectives := rfl

@[simp] theorem lookupSymG_snd_currentAddressLabel (s : GenState) (str : String) :
    (lookupSymG s str).2.currentAddressLabel = s.currentAddressLabel := rfl

@[simp] theorem lookupSymG_snd_addressMap (s : GenState) (str : String) :
    (lookupSymG s str).2.addressMap = s.addressMap := rfl

@[simp] theorem lookupSymG_snd_iteratorIndex (s : GenState) (str : String) :
    (lookupSymG s str).2.iteratorIndex = s.iteratorIndex := rfl

@[simp] theorem lookupSymG_snd_timerIndex (s : GenState) (str : String) :
    (lookupSymG s str).2.timerIndex = s.timerIndex := rfl

@[simp] theorem lookupSymG_snd_encoder (s : GenState) (str : String) :
    (lookupSymG s str).2.encoder = s.encoder := rfl

@[simp] theorem lookupSymG_fst (s : GenState) (str : String) :
    (lookupSymG s str).1 = (s.symbolTable.lookup str).1 := rfl

@[simp] theorem lookupSymG_snd_symbolTable (s : GenState) (str : String) :
    (lookupSymG s str).2.symbolTable = (s.symbolTable.lookup str).2 := rfl

@[simp] theorem pushDirective_code (s : GenState) (d : Nat) :
    (pushDirective s d).code = s.code := rfl

@[simp] theorem pushDirective_ioDirectives (s : GenState) (d : Nat) :
    (pushDirective s d).ioDirectives = s.ioDirectives ++ [d] := rfl

@[simp] theorem pushDirective_currentAddressLabel (s : GenState) (d : Nat) :
    (pushDirective s d).currentAddressLabel = s.currentAddressLabel := rfl

@[simp] theorem pushDirective_addressMap (s : GenState) (d : Nat) :
    (pushDirective s d).addressMap = s.addressMap := rfl

@[simp] theorem pushDirective_iteratorIndex (s : GenState) (d : Nat) :
    (pushDirective s d).iteratorIndex = s.iteratorIndex := rfl

@[simp] theorem pushDirective_timerIndex (s : GenState) (d : Nat) :
    (pushDirective s d).timerIndex = s.timerIndex := rfl

@[simp] theorem pushDirective_encoder (s : GenState) (d : Nat) :
    (pushDirective s d).encoder = s.encoder := rfl

@[simp] theorem pushDirective_symbolTable (s : GenState) (d : Nat) :
    (pushDirective s d).symbolTable = s.symbolTable := rfl

@[simp] theorem codeSize_eq (s : GenState) : codeSize s = s.code.length := rfl

/-- lookupAddress after setAddress at the same label yields the stored value. -/
theorem lookupAddress_setAddress_self (s : GenState) (l v : Nat) :
    lookupAddress (setAddress s l v) l = v := by
  unfold lookupAddress setAddress
  by_cases h : l < s.addressMap.length
  · simp only [if_pos h]
    rw [List.getD_eq_getElem?_getD, List.getElem?_set_self] <;> simp [h]
  · simp only [if_neg h]
    have hlen : l < (s.addressMap ++
        List.replicate (l + 1 - s.addressMap.length) 0).length := by
      simp [List.length_append, List.length_replicate]
      omega
    rw [List.getD_eq_getElem?_getD, List.getElem?_set_self] <;> simp_all

/-- lookupAddress after setAddress at a different label is unchanged. -/
theorem lookupAddress_setAddress_ne (s : GenState) (l l' v : Nat)
    (h : l ≠ l') : lookupAddress (setAddress s l v) l' = lookupAddress s l' := by
  unfold lookupAddress setAddress
  by_cases hl : l < s.addressMap.length
  · simp only [if_pos hl]
    rw [List.getD_eq_getElem?_getD, List.getElem?_set_ne h,
      ← List.getD_eq_getElem?_getD]
  · simp only [if_neg hl]
    rw [List.getD_eq_getElem?_getD, List.getElem?_set_ne h]
    by_cases h' : l' < s.addressMap.length
    · rw [List.getElem?_append_left h']
      rw [List.getD_eq_getElem?_getD]
    · rw [List.getD_eq_getElem?_getD]
      rcases Nat.lt_or_ge l' (s.addressMap.length + (l + 1 - s.addressMap.length))
        with h2 | h2
      · rw [List.getElem?_append_right (Nat.le_of_not_lt h')]
        simp only [List.getElem?_replicate]
        have : l' - s.addressMap.length < l + 1 - s.addressMap.length := by omega
        simp [this, List.getElem?_eq_none (by simpa using Nat.le_of_not_lt h')]
      · rw [List.getElem?_eq_none, List.getElem?_eq_none]
        · simpa using Nat.le_of_not_lt h'
        · simp only [List.length_append, List.length_replicate]
          omega

/-! ## Invariants of the expression and condition visitors: the code
stream is append-only and the sidetable, label table and the three dense
allocators are untouched (only the encoder and symbol table may change
besides the stream). -/

def ExprInv (s t : GenState) : Prop :=
  (∃ l, t.code = s.code ++ l) ∧
  t.ioDirectives = s.ioDirectives ∧
  t.currentAddressLabel = s.currentAddressLabel ∧
  t.addressMap = s.addressMap ∧
  t.iteratorIndex = s.iteratorIndex ∧
  t.timerIndex = s.timerIndex

theorem ExprInv.reflE (s : GenState) : ExprInv s s :=
  ⟨⟨[], by simp⟩, rfl, rfl, rfl, rfl, rfl⟩

theorem ExprInv.transE {s t u : GenState} (h1 : ExprInv s t)
    (h2 : ExprInv t u) : ExprInv s u := by
  obtain ⟨⟨l1, hl1⟩, a2, a3, a4, a5, a6⟩ := h1
  obtain ⟨⟨l2, hl2⟩, b2, b3, b4, b5, b6⟩ := h2
  refine ⟨⟨l1 ++ l2, ?_⟩, ?_, ?_, ?_, ?_, ?_⟩ <;>
    simp [hl2, hl1, a2, a3, a4, a5, a6, b2, b3, b4, b5, b6]

theorem ExprInv.stepPushE {s t : GenState} (h : ExprInv s t) (w : Word) :
    ExprInv s (push t w) := by
  obtain ⟨⟨l, hl⟩, a2, a3, a4, a5, a6⟩ := h
  exact ⟨⟨l ++ [w], by simp [hl]⟩, a2, a3, a4, a5, a6⟩

theorem ExprInv.stepPushOpE {s t : GenState} (h : ExprInv s t) (o : LVMOp) :
    ExprInv s (pushOp t o) := h.stepPushE (Word.op o)

theorem ExprInv.stepPushNatE {s t : GenState} (h : ExprInv s t) (n : Nat) :
    ExprInv s (pushNat t n) := h.stepPushE (Word.imm (Int.ofNat n))

theorem ExprInv.stepPushIntE {s t : GenState} (h : ExprInv s t) (n : Int) :
    ExprInv s (pushInt t n) := h.stepPushE (Word.imm n)

theorem ExprInv.stepEncE {s t : GenState} (h : ExprInv s t) (rel : RamRelation) :
    ExprInv s (encodeRelG t rel).2 := by
  obtain ⟨⟨l, hl⟩, a2, a3, a4, a5, a6⟩ := h
  exact ⟨⟨l, by simpa using hl⟩, a2, a3, a4, a5, a6⟩

theorem ExprInv.stepSymE {s t : GenState} (h : ExprInv s t) (str : String) :
    ExprInv s (lookupSymG t str).2 := by
  obtain ⟨⟨l, hl⟩, a2, a3, a4, a5, a6⟩ := h
  exact ⟨⟨l, by simpa using hl⟩, a2, a3, a4, a5, a6⟩

theorem ExprInv.stepFoldE {s t : GenState} (h : ExprInv s t)
    (f : Nat → Nat) (l : List Nat) :
    ExprInv s (l.foldl (fun u i => pushNat u (f i)) t) := by
  induction l generalizing t with
  | nil => exact h
  | cons x xs ih => exact ih (h.stepPushNatE (f x))

theorem ExprInv.stepEmitExE {s t : GenState} (h : ExprInv s t)
    (arity relId indexPos : Nat) (mask : List Nat) :
    ExprInv s (emitExistenceCheckInst t arity relId indexPos mask) := by
  unfold emitExistenceCheckInst
  split <;>
    exact ExprInv.stepFoldE
      (((h.stepPushOpE _).stepPushNatE relId).stepPushNatE indexPos) _ _

theorem ExprInv.stepEmitRangeE {s t : GenState} (h : ExprInv s t)
    (arity relId indexPos counterLabel : Nat) (mask : List Nat) :
    ExprInv s (emitRangeIndexInst t arity relId indexPos counterLabel mask) := by
  unfold emitRangeIndexInst
  split <;>
    exact ExprInv.stepFoldE
      ((((h.stepPushOpE _).stepPushNatE counterLabel).stepPushNatE relId).stepPushNatE indexPos) _ _

mutual

theorem genExpr_inv (e : RamExpr) (ea : Nat) (s : GenState) :
    ExprInv s (genExpr e ea s) := by
  cases e with
  | Number c =>
      exact ((ExprInv.reflE s).stepPushOpE _).stepPushIntE c
  | TupleElement tid el =>
      exact (((ExprInv.reflE s).stepPushOpE _).stepPushNatE tid).stepPushNatE el
  | AutoIncrement =>
      exact (ExprInv.reflE s).stepPushOpE _
  | IntrinsicOperator fop args =>
      simp only [genExpr]
      rcases hc : intrinsicClass fop with o | o | o | o | o <;> simp only []
      · rcases args with _ | ⟨a0, rest⟩
        · exact ExprInv.reflE s
        · exact (genExpr_inv a0 ea s).stepPushOpE o
      · rcases args with _ | ⟨a0, _ | ⟨a1, rest⟩⟩
        · exact ExprInv.reflE s
        · exact ExprInv.reflE s
        · exact ((genExpr_inv a0 ea s).transE (genExpr_inv a1 ea _)).stepPushOpE o
      · rcases args with _ | ⟨a0, _ | ⟨a1, _ | ⟨a2, rest⟩⟩⟩
        · exact ExprInv.reflE s
        · exact ExprInv.reflE s
        · exact ExprInv.reflE s
        · exact (((genExpr_inv a0 ea s).transE (genExpr_inv a1 ea _)).transE
            (genExpr_inv a2 ea _)).stepPushOpE o
      · exact ((genExprList_inv args ea s).stepPushOpE o).stepPushNatE args.length
      · exact ((genExprListRev_inv args ea s).stepPushOpE o).stepPushNatE args.length
  | UserDefinedOperator name ftype args =>
      simp only [genExpr]
      exact ((((((genExprListRev_inv args ea s).stepPushOpE
        _).stepSymE name).stepPushNatE _).stepSymE ftype).stepPushNatE _).stepPushNatE _
  | PackRecord args =>
      exact ((genExprList_inv args ea s).stepPushOpE _).stepPushNatE args.length
  | SubroutineArgument n =>
      exact ((ExprInv.reflE s).stepPushOpE _).stepPushNatE n
  | UndefValue => exact ExprInv.reflE s

theorem genExprList_inv (l : List RamExpr) (ea : Nat) (s : GenState) :
    ExprInv s (genExprList l ea s) := by
  cases l with
  | nil => exact ExprInv.reflE s
  | cons e es =>
      exact (genExpr_inv e ea s).transE (genExprList_inv es ea _)

theorem genExprListRev_inv (l : List RamExpr) (ea : Nat) (s : GenState) :
    ExprInv s (genExprListRev l ea s) := by
  cases l with
  | nil => exact ExprInv.reflE s
  | cons e es =>
      exact (genExprListRev_inv es ea s).transE (genExpr_inv e ea _)

theorem genPatternRev_inv (l : List RamExpr) (ea : Nat) (s : GenState) :
    ExprInv s (genPatternRev l ea s) := by
  cases l with
  | nil => exact ExprInv.reflE s
  | cons v vs =>
      simp only [genPatternRev]
      split
      · exact genPatternRev_inv vs ea s
      · exact (genPatternRev_inv vs ea s).transE (genExpr_inv v ea _)

end

theorem genCond_inv (isa : IndexOracle) (c : RamCond) (ea : Nat)
    (s : GenState) : ExprInv s (genCond isa c ea s) := by
  induction c generalizing s with
  | RTrue => exact (ExprInv.reflE s).stepPushOpE _
  | RFalse => exact (ExprInv.reflE s).stepPushOpE _
  | Conjunction lhs rhs ihl ihr =>
      exact ((ihl s).transE (ihr _)).stepPushOpE _
  | Negation c ih => exact (ih s).stepPushOpE _
  | EmptinessCheck rel =>
      exact (((ExprInv.reflE s).stepPushOpE _).stepEncE rel).stepPushNatE _
  | ExistenceCheck rel values sg =>
      simp only [genCond]
      split
      · exact ((((ExprInv.reflE s).stepEncE rel).transE
          (genPatternRev_inv values ea _)).stepPushOpE _).stepPushNatE _ |>.stepPushOpE _
      · split
        · exact ((((ExprInv.reflE s).stepEncE rel).transE
            (genPatternRev_inv values ea _)).stepPushOpE _).stepPushNatE _
        · exact (((ExprInv.reflE s).stepEncE rel).transE
            (genPatternRev_inv values ea _)).stepEmitExE _ _ _ _
  | ProvenanceExistenceCheck rel values sg =>
      simp only [genCond]
      split
      · exact ((((ExprInv.reflE s).stepEncE rel).transE
          (genPatternRev_inv _ ea _)).stepPushOpE _).stepPushNatE _ |>.stepPushOpE _
      · exact (((ExprInv.reflE s).stepEncE rel).transE
          (genPatternRev_inv _ ea _)).stepEmitExE _ _ _ _
  | Constraint bop lhs rhs =>
      exact (((ExprInv.reflE s).stepPushOpE _).transE
        ((genExpr_inv lhs ea _).transE (genExpr_inv rhs ea _))).stepPushOpE _

/-! ## The code stream is append-only across every visitor. -/

def codeExt (s t : GenState) : Prop := ∃ l, t.code = s.code ++ l

theorem codeExt.refl (s : GenState) : codeExt s s := ⟨[], by simp⟩

theorem codeExt.trans {s t u : GenState} (h1 : codeExt s t) (h2 : codeExt t u) :
    codeExt s u := by
  obtain ⟨l1, hl1⟩ := h1
  obtain ⟨l2, hl2⟩ := h2
  exact ⟨l1 ++ l2, by simp [hl2, hl1]⟩

theorem codeExt.stepPush {s t : GenState} (h : codeExt s t) (w : Word) :
    codeExt s (push t w) := by
  obtain ⟨l, hl⟩ := h
  exact ⟨l ++ [w], by simp [hl]⟩

theorem codeExt.stepPushOp {s t : GenState} (h : codeExt s t) (o : LVMOp) :
    codeExt s (pushOp t o) := h.stepPush (Word.op o)

theorem codeExt.stepPushNat {s t : GenState} (h : codeExt s t) (n : Nat) :
    codeExt s (pushNat t n) := h.stepPush (Word.imm (Int.ofNat n))

theorem codeExt.stepPushInt {s t : GenState} (h : codeExt s t) (n : Int) :
    codeExt s (pushInt t n) := h.stepPush (Word.imm n)

theorem codeExt.stepBumpIterator {s t : GenState} (h : codeExt s t) :
    codeExt s (bumpIterator t) := h

theorem codeExt.stepBumpLabel {s t : GenState} (h : codeExt s t) :
    codeExt s (bumpLabel t) := h

theorem codeExt.stepBumpTimer {s t : GenState} (h : codeExt s t) :
    codeExt s (bumpTimer t) := h

theorem codeExt.stepSet {s t : GenState} (h : codeExt s t) (l v : Nat) :
    codeExt s (setAddress t l v) := h

theorem codeExt.stepEnc {s t : GenState} (h : codeExt s t) (rel : RamRelation) :
    codeExt s (encodeRelG t rel).2 := h

theorem codeExt.stepSym {s t : GenState} (h : codeExt s t) (str : String) :
    codeExt s (lookupSymG t str).2 := h

theorem codeExt.stepDir {s t : GenState} (h : codeExt s t) (d : Nat) :
    codeExt s (pushDirective t d) := h

theorem codeExt.stepSearch {s t : GenState} (h : codeExt s t) (pt : String) :
    codeExt s (searchHeader t pt) :=
  ((h.stepPushOp _).stepPushNat _).stepSym pt |>.stepPushNat _

theorem codeExt.stepExpr {s t : GenState} (h : codeExt s t) (e : RamExpr)
    (ea : Nat) : codeExt s (genExpr e ea t) := h.trans (genExpr_inv e ea t).1

theorem codeExt.stepExprListRev {s t : GenState} (h : codeExt s t)
    (l : List RamExpr) (ea : Nat) : codeExt s (genExprListRev l ea t) :=
  h.trans (genExprListRev_inv l ea t).1

theorem codeExt.stepPattern {s t : GenState} (h : codeExt s t)
    (l : List RamExpr) (ea : Nat) : codeExt s (genPatternRev l ea t) :=
  h.trans (genPatternRev_inv l ea t).1

theorem codeExt.stepCond {s t : GenState} (h : codeExt s t)
    (isa : IndexOracle) (c : RamCond) (ea : Nat) :
    codeExt s (genCond isa c ea t) := h.trans (genCond_inv isa c ea t).1

theorem codeExt.stepEmitRange {s t : GenState} (h : codeExt s t)
    (arity relId indexPos counterLabel : Nat) (mask : List Nat) :
    codeExt s (emitRangeIndexInst t arity relId indexPos counterLabel mask) :=
  h.trans ((ExprInv.reflE t).stepEmitRangeE arity relId indexPos counterLabel mask).1

theorem codeExt.stepEmitEx {s t : GenState} (h : codeExt s t)
    (arity relId indexPos : Nat) (mask : List Nat) :
    codeExt s (emitExistenceCheckInst t arity relId indexPos mask) :=
  h.trans ((ExprInv.reflE t).stepEmitExE arity relId indexPos mask).1

theorem codeExt.base {s t : GenState} (h : t.code = s.code) : codeExt s t :=
  ⟨[], by rw [h, List.append_nil]⟩

theorem codeExt.stepSeed {s t : GenState} (h : codeExt s t) (fn : AggFunc) :
    codeExt s (aggSeed fn t) := by
  cases fn <;> exact (h.stepPushOp _).stepPushInt _

theorem codeExt.stepAggStep {s t : GenState} (h : codeExt s t) (fn : AggFunc) :
    codeExt s (aggStep fn t) := by
  cases fn with
  | MIN => exact (h.stepPushOp _).stepPushNat _
  | MAX => exact (h.stepPushOp _).stepPushNat _
  | COUNT => exact ((h.stepPushOp _).stepPushInt _).stepPushOp _
  | SUM => exact h.stepPushOp _

theorem codeExt.stepAggGuard {s t : GenState} (h : codeExt s t)
    (fn : AggFunc) (tid L2 : Nat) : codeExt s (aggGuard fn tid L2 t) := by
  unfold aggGuard
  exact (((((((h.stepPushOp _).stepPushNat _).stepPushNat _).stepPushOp
    _).stepPushInt _).stepPushOp _).stepPushOp _).stepPushNat _

theorem codeExt.stepAggLoop {s t : GenState} (h : codeExt s t)
    (isa : IndexOracle) (fn : AggFunc) (expr : RamExpr) (cond : RamCond)
    (tid counterLabel L1 exitAddress : Nat) :
    codeExt s (aggLoop isa fn expr cond tid counterLabel L1 exitAddress t) := by
  unfold aggLoop
  repeat apply codeExt.stepPush
  apply codeExt.stepAggStep
  split
  · split
    · repeat apply codeExt.stepPush
      apply codeExt.stepSeed
      exact h
    · repeat apply codeExt.stepPush
      apply codeExt.stepCond
      repeat apply codeExt.stepPush
      apply codeExt.stepSeed
      exact h
  · apply codeExt.stepExpr
    split
    · repeat apply codeExt.stepPush
      apply codeExt.stepSeed
      exact h
    · repeat apply codeExt.stepPush
      apply codeExt.stepCond
      repeat apply codeExt.stepPush
      apply codeExt.stepSeed
      exact h

set_option maxRecDepth 4000 in
set_option maxHeartbeats 2000000 in
mutual

theorem genOp_ext (isa : IndexOracle) (o : RamOp) (ea : Nat) (s : GenState) :
    codeExt s (genOp isa o ea s) := by
  cases o with
  | Scan rel tid ptext nested =>
      simp only [genOp]
      repeat apply codeExt.stepPush
      refine codeExt.trans ?_ (genOp_ext isa nested _ _)
      repeat apply codeExt.stepPush
      exact codeExt.base rfl
  | Choice rel tid cond ptext nested =>
      simp only [genOp]
      apply codeExt.stepSet
      refine codeExt.trans ?_ (genOp_ext isa nested _ _)
      repeat apply codeExt.stepPush
      apply codeExt.stepCond
      repeat apply codeExt.stepPush
      exact codeExt.base rfl
  | IndexScan rel tid patterns sg ptext nested =>
      simp only [genOp]
      repeat apply codeExt.stepPush
      refine codeExt.trans ?_ (genOp_ext isa nested _ _)
      repeat apply codeExt.stepPush
      split
      · repeat apply codeExt.stepPush
        apply codeExt.stepPattern
        repeat apply codeExt.stepPush
        exact codeExt.base rfl
      · apply codeExt.stepEmitRange
        apply codeExt.stepPattern
        repeat apply codeExt.stepPush
        exact codeExt.base rfl
  | IndexChoice rel tid patterns sg cond ptext nested =>
      simp only [genOp]
      apply codeExt.stepSet
      refine codeExt.trans ?_ (genOp_ext isa nested _ _)
      repeat apply codeExt.stepPush
      apply codeExt.stepCond
      repeat apply codeExt.stepPush
      split
      · repeat apply codeExt.stepPush
        apply codeExt.stepPattern
        repeat apply codeExt.stepPush
        exact codeExt.base rfl
      · apply codeExt.stepEmitRange
        apply codeExt.stepPattern
        repeat apply codeExt.stepPush
        exact codeExt.base rfl
  | UnpackRecord expr arity tid ptext nested =>
      simp only [genOp]
      apply codeExt.stepSet
      refine codeExt.trans ?_ (genOp_ext isa nested _ _)
      repeat apply codeExt.stepPush
      apply codeExt.stepExpr
      exact codeExt.base rfl
  | Aggregate fn rel expr cond tid ptext nested =>
      simp only [genOp]
      refine codeExt.trans ?_
        (genAggKernel_ext isa fn expr cond tid ptext nested _ _ _ _ _)
      repeat apply codeExt.stepPush
      exact codeExt.base rfl
  | IndexAggregate fn rel patterns sg expr cond tid ptext nested =>
      simp only [genOp]
      refine codeExt.trans ?_
        (genAggKernel_ext isa fn expr cond tid ptext nested _ _ _ _ _)
      split
      · repeat apply codeExt.stepPush
        apply codeExt.stepPattern
        repeat apply codeExt.stepPush
        exact codeExt.base rfl
      · apply codeExt.stepEmitRange
        apply codeExt.stepPattern
        repeat apply codeExt.stepPush
        exact codeExt.base rfl
  | Break cond nested =>
      simp only [genOp]
      refine codeExt.trans ?_ (genOp_ext isa nested _ _)
      repeat apply codeExt.stepPush
      apply codeExt.stepCond
      exact codeExt.base rfl
  | Filter cond ptext nested =>
      simp only [genOp]
      apply codeExt.stepSet
      refine codeExt.trans ?_ (genOp_ext isa nested _ _)
      repeat apply codeExt.stepPush
      apply codeExt.stepCond
      repeat apply codeExt.stepPush
      exact codeExt.base rfl
  | Project rel values =>
      simp only [genOp]
      repeat apply codeExt.stepPush
      apply codeExt.stepExprListRev
      exact codeExt.base rfl
  | SubroutineReturnValue values =>
      simp only [genOp]
      repeat apply codeExt.stepPush
      apply codeExt.stepPattern
      exact codeExt.base rfl
termination_by 2 * sizeOf o

theorem genAggKernel_ext (isa : IndexOracle) (fn : AggFunc) (expr : RamExpr)
    (cond : RamCond) (tid : Nat) (ptext : String) (nested : RamOp)
    (counterLabel L1 L2 exitAddress : Nat) (s : GenState) :
    codeExt s
      (genAggKernel isa fn expr cond tid ptext nested counterLabel L1 L2
        exitAddress s) := by
  unfold genAggKernel
  apply codeExt.stepSet
  refine codeExt.trans ?_ (genOp_ext isa nested _ _)
  repeat apply codeExt.stepPush
  split
  · apply codeExt.stepAggGuard
    repeat apply codeExt.stepPush
    split
    · repeat apply codeExt.stepPush
      exact codeExt.base rfl
    · apply codeExt.stepAggLoop
      exact codeExt.refl s
  · repeat apply codeExt.stepPush
    split
    · repeat apply codeExt.stepPush
      exact codeExt.base rfl
    · apply codeExt.stepAggLoop
      exact codeExt.refl s
termination_by 2 * sizeOf nested + 1

end

/-! ## Pass simulation: two traversals of the same IR from states that
agree on stream length, sidetable, and the three allocators stay in
lockstep on those components, whatever the address map, encoder, symbol
table or threaded exit addresses are. -/

def TrackEq (s t : GenState) : Prop :=
  s.code.length = t.code.length ∧
  s.ioDirectives = t.ioDirectives ∧
  s.currentAddressLabel = t.currentAddressLabel ∧
  s.iteratorIndex = t.iteratorIndex ∧
  s.timerIndex = t.timerIndex

theorem TrackEq.stepPushT {s t : GenState} (h : TrackEq s t) (w w' : Word) :
    TrackEq (push s w) (push t w') := by
  obtain ⟨h1, h2, h3, h4, h5⟩ := h
  exact ⟨by simp [h1], h2, h3, h4, h5⟩

theorem TrackEq.stepSetT {s t : GenState} (h : TrackEq s t) (l v l2 v2 : Nat) :
    TrackEq (setAddress s l v) (setAddress t l2 v2) := by
  obtain ⟨h1, h2, h3, h4, h5⟩ := h
  exact ⟨by simpa using h1, h2, h3, h4, h5⟩

theorem TrackEq.stepBumpLabelT {s t : GenState} (h : TrackEq s t) :
    TrackEq (bumpLabel s) (bumpLabel t) := by
  obtain ⟨h1, h2, h3, h4, h5⟩ := h
  exact ⟨h1, h2, by simp [h3], h4, h5⟩

theorem TrackEq.stepBumpIteratorT {s t : GenState} (h : TrackEq s t) :
    TrackEq (bumpIterator s) (bumpIterator t) := by
  obtain ⟨h1, h2, h3, h4, h5⟩ := h
  exact ⟨h1, h2, h3, by simp [h4], h5⟩

theorem TrackEq.stepBumpTimerT {s t : GenState} (h : TrackEq s t) :
    TrackEq (bumpTimer s) (bumpTimer t) := by
  obtain ⟨h1, h2, h3, h4, h5⟩ := h
  exact ⟨h1, h2, h3, h4, by simp [h5]⟩

theorem TrackEq.stepEncT {s t : GenState} (h : TrackEq s t)
    (rel : RamRelation) :
    TrackEq (encodeRelG s rel).2 (encodeRelG t rel).2 := by
  obtain ⟨h1, h2, h3, h4, h5⟩ := h
  exact ⟨by simpa using h1, h2, h3, h4, h5⟩

theorem TrackEq.stepSymT {s t : GenState} (h : TrackEq s t) (str : String) :
    TrackEq (lookupSymG s str).2 (lookupSymG t str).2 := by
  obtain ⟨h1, h2, h3, h4, h5⟩ := h
  exact ⟨by simpa using h1, h2, h3, h4, h5⟩

theorem TrackEq.stepDirT {s t : GenState} (h : TrackEq s t) (d : Nat) :
    TrackEq (pushDirective s d) (pushDirective t d) := by
  obtain ⟨h1, h2, h3, h4, h5⟩ := h
  exact ⟨by simpa using h1, by simp [h2], h3, h4, h5⟩

theorem TrackEq.stepSearchT {s t : GenState} (h : TrackEq s t) (pt : String) :
    TrackEq (searchHeader s pt) (searchHeader t pt) :=
  (((h.stepPushT _ _).stepPushT _ _).stepSymT pt).stepPushT _ _

theorem TrackEq.stepFoldT {s t : GenState} (h : TrackEq s t)
    (f g : Nat → Nat) (l : List Nat) :
    TrackEq (l.foldl (fun u i => pushNat u (f i)) s)
      (l.foldl (fun u i => pushNat u (g i)) t) := by
  induction l generalizing s t with
  | nil => exact h
  | cons x xs ih => exact ih (h.stepPushT _ _)

theorem TrackEq.stepEmitExT {s t : GenState} (h : TrackEq s t)
    (arity r i r2 i2 : Nat) (mask mask2 : List Nat) :
    TrackEq (emitExistenceCheckInst s arity r i mask)
      (emitExistenceCheckInst t arity r2 i2 mask2) := by
  unfold emitExistenceCheckInst
  split <;>
    exact (((h.stepPushT _ _).stepPushT _ _).stepPushT _ _).stepFoldT _ _ _

theorem TrackEq.stepEmitRangeT {s t : GenState} (h : TrackEq s t)
    (arity r i c r2 i2 c2 : Nat) (mask mask2 : List Nat) :
    TrackEq (emitRangeIndexInst s arity r i c mask)
      (emitRangeIndexInst t arity r2 i2 c2 mask2) := by
  unfold emitRangeIndexInst
  split <;>
    exact ((((h.stepPushT _ _).stepPushT _ _).stepPushT _ _).stepPushT
      _ _).stepFoldT _ _ _

mutual

theorem genExpr_track (e : RamExpr) (ea1 ea2 : Nat) {s t : GenState}
    (h : TrackEq s t) : TrackEq (genExpr e ea1 s) (genExpr e ea2 t) := by
  cases e with
  | Number c => exact (h.stepPushT _ _).stepPushT _ _
  | TupleElement tid el => exact ((h.stepPushT _ _).stepPushT _ _).stepPushT _ _
  | AutoIncrement => exact h.stepPushT _ _
  | IntrinsicOperator fop args =>
      simp only [genExpr]
      rcases intrinsicClass fop with o | o | o | o | o <;> simp only []
      · rcases args with _ | ⟨a0, rest⟩
        · exact h
        · exact (genExpr_track a0 ea1 ea2 h).stepPushT _ _
      · rcases args with _ | ⟨a0, _ | ⟨a1, rest⟩⟩
        · exact h
        · exact h
        · exact (genExpr_track a1 ea1 ea2
            (genExpr_track a0 ea1 ea2 h)).stepPushT _ _
      · rcases args with _ | ⟨a0, _ | ⟨a1, _ | ⟨a2, rest⟩⟩⟩
        · exact h
        · exact h
        · exact h
        · exact (genExpr_track a2 ea1 ea2 (genExpr_track a1 ea1 ea2
            (genExpr_track a0 ea1 ea2 h))).stepPushT _ _
      · exact ((genExprList_track args ea1 ea2 h).stepPushT _ _).stepPushT _ _
      · exact ((genExprListRev_track args ea1 ea2 h).stepPushT _ _).stepPushT _ _
  | UserDefinedOperator name ftype args =>
      simp only [genExpr]
      exact ((((((genExprListRev_track args ea1 ea2 h).stepPushT _ _).stepSymT
        name).stepPushT _ _).stepSymT ftype).stepPushT _ _).stepPushT _ _
  | PackRecord args =>
      exact ((genExprList_track args ea1 ea2 h).stepPushT _ _).stepPushT _ _
  | SubroutineArgument n => exact (h.stepPushT _ _).stepPushT _ _
  | UndefValue => exact h

theorem genExprList_track (l : List RamExpr) (ea1 ea2 : Nat) {s t : GenState}
    (h : TrackEq s t) : TrackEq (genExprList l ea1 s) (genExprList l ea2 t) := by
  cases l with
  | nil => exact h
  | cons e es => exact genExprList_track es ea1 ea2 (genExpr_track e ea1 ea2 h)

theorem genExprListRev_track (l : List RamExpr) (ea1 ea2 : Nat)
    {s t : GenState} (h : TrackEq s t) :
    TrackEq (genExprListRev l ea1 s) (genExprListRev l ea2 t) := by
  cases l with
  | nil => exact h
  | cons e es =>
      exact genExpr_track e ea1 ea2 (genExprListRev_track es ea1 ea2 h)

theorem genPatternRev_track (l : List RamExpr) (ea1 ea2 : Nat)
    {s t : GenState} (h : TrackEq s t) :
    TrackEq (genPatternRev l ea1 s) (genPatternRev l ea2 t) := by
  cases l with
  | nil => exact h
  | cons v vs =>
      simp only [genPatternRev]
      split
      · exact genPatternRev_track vs ea1 ea2 h
      · exact genExpr_track v ea1 ea2 (genPatternRev_track vs ea1 ea2 h)

end

theorem genCond_track (isa : IndexOracle) (c : RamCond) (ea1 ea2 : Nat)
    {s t : GenState} (h : TrackEq s t) :
    TrackEq (genCond isa c ea1 s) (genCond isa c ea2 t) := by
  induction c generalizing s t with
  | RTrue => exact h.stepPushT _ _
  | RFalse => exact h.stepPushT _ _
  | Conjunction lhs rhs ihl ihr => exact ((ihr (ihl h))).stepPushT _ _
  | Negation c ih => exact (ih h).stepPushT _ _
  | EmptinessCheck rel => exact ((h.stepPushT _ _).stepEncT rel).stepPushT _ _
  | ExistenceCheck rel values sg =>
      simp only [genCond]
      split
      · exact (((genPatternRev_track values ea1 ea2
          (h.stepEncT rel)).stepPushT _ _).stepPushT _ _).stepPushT _ _
      · split
        · exact ((genPatternRev_track values ea1 ea2
            (h.stepEncT rel)).stepPushT _ _).stepPushT _ _
        · exact (genPatternRev_track values ea1 ea2
            (h.stepEncT rel)).stepEmitExT _ _ _ _ _ _ _
  | ProvenanceExistenceCheck rel values sg =>
      simp only [genCond]
      split
      · exact (((genPatternRev_track _ ea1 ea2
          (h.stepEncT rel)).stepPushT _ _).stepPushT _ _).stepPushT _ _
      · exact (genPatternRev_track _ ea1 ea2
          (h.stepEncT rel)).stepEmitExT _ _ _ _ _ _ _
  | Constraint bop lhs rhs =>
      exact (genExpr_track rhs ea1 ea2 (genExpr_track lhs ea1 ea2
        (h.stepPushT _ _))).stepPushT _ _

theorem TrackEq.stepSeedT {s t : GenState} (h : TrackEq s t) (fn : AggFunc) :
    TrackEq (aggSeed fn s) (aggSeed fn t) := by
  cases fn <;> exact (h.stepPushT _ _).stepPushT _ _

theorem TrackEq.stepAggStepT {s t : GenState} (h : TrackEq s t) (fn : AggFunc) :
    TrackEq (aggStep fn s) (aggStep fn t) := by
  cases fn with
  | MIN => exact (h.stepPushT _ _).stepPushT _ _
  | MAX => exact (h.stepPushT _ _).stepPushT _ _
  | COUNT => exact ((h.stepPushT _ _).stepPushT _ _).stepPushT _ _
  | SUM => exact h.stepPushT _ _

theorem TrackEq.stepAggGuardT {s t : GenState} (h : TrackEq s t)
    (fn : AggFunc) (tid l2a l2b : Nat) :
    TrackEq (aggGuard fn tid l2a s) (aggGuard fn tid l2b t) := by
  unfold aggGuard
  exact (((((((h.stepPushT _ _).stepPushT _ _).stepPushT _ _).stepPushT
    _ _).stepPushT _ _).stepPushT _ _).stepPushT _ _).stepPushT _ _

theorem TrackEq.stepAggLoopT {s t : GenState} (h : TrackEq s t)
    (isa : IndexOracle) (fn : AggFunc) (expr : RamExpr) (cond : RamCond)
    (tid c1 l1 ea1 c2 l1b ea2 : Nat) :
    TrackEq (aggLoop isa fn expr cond tid c1 l1 ea1 s)
      (aggLoop isa fn expr cond tid c2 l1b ea2 t) := by
  unfold aggLoop
  repeat apply TrackEq.stepPushT
  apply TrackEq.stepAggStepT
  split
  · split
    · apply TrackEq.stepBumpLabelT
      repeat apply TrackEq.stepPushT
      apply TrackEq.stepSeedT
      exact h
    · repeat apply TrackEq.stepPushT
      refine genCond_track isa cond _ _ ?_
      apply TrackEq.stepBumpLabelT
      repeat apply TrackEq.stepPushT
      apply TrackEq.stepSeedT
      exact h
  · refine genExpr_track expr _ _ ?_
    split
    · apply TrackEq.stepBumpLabelT
      repeat apply TrackEq.stepPushT
      apply TrackEq.stepSeedT
      exact h
    · repeat apply TrackEq.stepPushT
      refine genCond_track isa cond _ _ ?_
      apply TrackEq.stepBumpLabelT
      repeat apply TrackEq.stepPushT
      apply TrackEq.stepSeedT
      exact h

set_option maxRecDepth 4000 in
set_option maxHeartbeats 2000000 in
mutual

theorem genOp_track (isa : IndexOracle) (o : RamOp) (ea1 ea2 : Nat)
    {s t : GenState} (h : TrackEq s t) :
    TrackEq (genOp isa o ea1 s) (genOp isa o ea2 t) := by
  cases o with
  | Scan rel tid ptext nested =>
      simp only [genOp]
      repeat apply TrackEq.stepPushT
      refine genOp_track isa nested _ _ ?_
      repeat apply TrackEq.stepPushT
      apply TrackEq.stepBumpLabelT
      apply TrackEq.stepBumpIteratorT
      repeat apply TrackEq.stepPushT
      exact h
  | Choice rel tid cond ptext nested =>
      simp only [genOp]
      repeat apply TrackEq.stepPushT
      refine genOp_track isa nested _ _ ?_
      repeat apply TrackEq.stepPushT
      refine genCond_track isa cond _ _ ?_
      repeat apply TrackEq.stepPushT
      apply TrackEq.stepBumpLabelT
      apply TrackEq.stepBumpLabelT
      apply TrackEq.stepBumpIteratorT
      repeat apply TrackEq.stepPushT
      exact h
  | IndexScan rel tid patterns sg ptext nested =>
      simp only [genOp]
      repeat apply TrackEq.stepPushT
      refine genOp_track isa nested _ _ ?_
      repeat apply TrackEq.stepPushT
      split
      · repeat apply TrackEq.stepPushT
        refine genPatternRev_track patterns _ _ ?_
        apply TrackEq.stepEncT
        apply TrackEq.stepBumpLabelT
        apply TrackEq.stepBumpIteratorT
        repeat apply TrackEq.stepPushT
        exact h
      · apply TrackEq.stepEmitRangeT
        refine genPatternRev_track patterns _ _ ?_
        apply TrackEq.stepEncT
        apply TrackEq.stepBumpLabelT
        apply TrackEq.stepBumpIteratorT
        repeat apply TrackEq.stepPushT
        exact h
  | IndexChoice rel tid patterns sg cond ptext nested =>
      simp only [genOp]
      repeat apply TrackEq.stepPushT
      refine genOp_track isa nested _ _ ?_
      repeat apply TrackEq.stepPushT
      refine genCond_track isa cond _ _ ?_
      repeat apply TrackEq.stepPushT
      split
      · repeat apply TrackEq.stepPushT
        refine genPatternRev_track patterns _ _ ?_
        apply TrackEq.stepEncT
        apply TrackEq.stepBumpLabelT
        apply TrackEq.stepBumpLabelT
        apply TrackEq.stepBumpIteratorT
        repeat apply TrackEq.stepPushT
        exact h
      · apply TrackEq.stepEmitRangeT
        refine genPatternRev_track patterns _ _ ?_
        apply TrackEq.stepEncT
        apply TrackEq.stepBumpLabelT
        apply TrackEq.stepBumpLabelT
        apply TrackEq.stepBumpIteratorT
        repeat apply TrackEq.stepPushT
        exact h
  | UnpackRecord expr arity tid ptext nested =>
      simp only [genOp]
      repeat apply TrackEq.stepPushT
      refine genOp_track isa nested _ _ ?_
      repeat apply TrackEq.stepPushT
      apply TrackEq.stepBumpLabelT
      repeat apply TrackEq.stepPushT
      refine genExpr_track expr _ _ ?_
      exact h
  | Aggregate fn rel expr cond tid ptext nested =>
      simp only [genOp]
      refine genAggKernel_track isa fn expr cond tid ptext nested _ _ _ _
        _ _ _ _ ?_
      repeat apply TrackEq.stepPushT
      apply TrackEq.stepBumpLabelT
      apply TrackEq.stepBumpLabelT
      apply TrackEq.stepBumpIteratorT
      repeat apply TrackEq.stepPushT
      exact h
  | IndexAggregate fn rel patterns sg expr cond tid ptext nested =>
      simp only [genOp]
      refine genAggKernel_track isa fn expr cond tid ptext nested _ _ _ _
        _ _ _ _ ?_
      split
      · repeat apply TrackEq.stepPushT
        refine genPatternRev_track patterns _ _ ?_
        apply TrackEq.stepEncT
        apply TrackEq.stepBumpLabelT
        apply TrackEq.stepBumpLabelT
        apply TrackEq.stepBumpIteratorT
        repeat apply TrackEq.stepPushT
        exact h
      · apply TrackEq.stepEmitRangeT
        refine genPatternRev_track patterns _ _ ?_
        apply TrackEq.stepEncT
        apply TrackEq.stepBumpLabelT
        apply TrackEq.stepBumpLabelT
        apply TrackEq.stepBumpIteratorT
        repeat apply TrackEq.stepPushT
        exact h
  | Break cond nested =>
      simp only [genOp]
      refine genOp_track isa nested _ _ ?_
      repeat apply TrackEq.stepPushT
      refine genCond_track isa cond _ _ ?_
      exact h
  | Filter cond ptext nested =>
      simp only [genOp]
      repeat apply TrackEq.stepPushT
      refine genOp_track isa nested _ _ ?_
      repeat apply TrackEq.stepPushT
      refine genCond_track isa cond _ _ ?_
      apply TrackEq.stepBumpLabelT
      repeat apply TrackEq.stepPushT
      exact h
  | Project rel values =>
      simp only [genOp]
      repeat apply TrackEq.stepPushT
      refine genExprListRev_track values _ _ ?_
      exact h
  | SubroutineReturnValue values =>
      simp only [genOp]
      repeat apply TrackEq.stepPushT
      refine genPatternRev_track values _ _ ?_
      exact h
termination_by 2 * sizeOf o

theorem genAggKernel_track (isa : IndexOracle) (fn : AggFunc) (expr : RamExpr)
    (cond : RamCond) (tid : Nat) (ptext : String) (nested : RamOp)
    (c1 l1 l2 ea1 c2 l1b l2b ea2 : Nat) {s t : GenState} (h : TrackEq s t) :
    TrackEq (genAggKernel isa fn expr cond tid ptext nested c1 l1 l2 ea1 s)
      (genAggKernel isa fn expr cond tid ptext nested c2 l1b l2b ea2 t) := by
  unfold genAggKernel
  refine genOp_track isa nested _ _ ?_
  repeat apply TrackEq.stepPushT
  split
  · apply TrackEq.stepAggGuardT
    repeat apply TrackEq.stepPushT
    split
    · repeat apply TrackEq.stepPushT
      exact h
    · apply TrackEq.stepAggLoopT
      exact h
  · repeat apply TrackEq.stepPushT
    split
    · repeat apply TrackEq.stepPushT
      exact h
    · apply TrackEq.stepAggLoopT
      exact h
termination_by 2 * sizeOf nested + 1

end

set_option maxRecDepth 4000 in
set_option maxHeartbeats 1000000 in
mutual

theorem genStmt_track (isa : IndexOracle) (st : RamStmt) (ea1 ea2 : Nat)
    {s t : GenState} (h : TrackEq s t) :
    TrackEq (genStmt isa st ea1 s) (genStmt isa st ea2 t) := by
  cases st with
  | Sequence stmts =>
      simp only [genStmt]
      refine genStmtList_track isa stmts _ _ ?_
      exact h.stepPushT _ _
  | Parallel stmts =>
      simp only [genStmt]
      exact genStmtList_track isa stmts _ _ h
  | Loop body =>
      simp only [genStmt]
      repeat apply TrackEq.stepPushT
      refine genStmt_track isa body _ _ ?_
      apply TrackEq.stepBumpLabelT
      repeat apply TrackEq.stepPushT
      exact h
  | Exit cond =>
      simp only [genStmt]
      repeat apply TrackEq.stepPushT
      exact genCond_track isa cond _ _ h
  | LogRelationTimer msg rel stmt =>
      simp only [genStmt]
      repeat apply TrackEq.stepPushT
      refine genStmt_track isa stmt _ _ ?_
      repeat apply TrackEq.stepPushT
      apply TrackEq.stepSymT
      apply TrackEq.stepBumpTimerT
      repeat apply TrackEq.stepPushT
      exact h
  | LogTimer msg stmt =>
      simp only [genStmt]
      repeat apply TrackEq.stepPushT
      refine genStmt_track isa stmt _ _ ?_
      repeat apply TrackEq.stepPushT
      apply TrackEq.stepSymT
      apply TrackEq.stepBumpTimerT
      repeat apply TrackEq.stepPushT
      exact h
  | DebugInfo msg stmt =>
      simp only [genStmt]
      refine genStmt_track isa stmt _ _ ?_
      repeat apply TrackEq.stepPushT
      exact h
  | Stratum body =>
      simp only [genStmt]
      refine genStmt_track isa body _ _ ?_
      repeat apply TrackEq.stepPushT
      exact h
  | Create rel =>
      simp only [genStmt]
      repeat apply TrackEq.stepPushT
      exact h
  | Clear rel =>
      simp only [genStmt]
      repeat apply TrackEq.stepPushT
      exact h
  | Drop rel =>
      simp only [genStmt]
      repeat apply TrackEq.stepPushT
      exact h
  | LogSize rel msg =>
      simp only [genStmt]
      repeat apply TrackEq.stepPushT
      exact h
  | Load rel dir =>
      simp only [genStmt]
      repeat apply TrackEq.stepPushT
      apply TrackEq.stepDirT
      repeat apply TrackEq.stepPushT
      exact h
  | Store rel dir =>
      simp only [genStmt]
      repeat apply TrackEq.stepPushT
      apply TrackEq.stepDirT
      repeat apply TrackEq.stepPushT
      exact h
  | Fact rel values =>
      simp only [genStmt]
      repeat apply TrackEq.stepPushT
      refine genExprListRev_track values _ _ ?_
      exact h
  | Query op =>
      simp only [genStmt]
      refine genOp_track isa op _ _ ?_
      repeat apply TrackEq.stepPushT
      exact h
  | Merge source target =>
      simp only [genStmt]
      repeat apply TrackEq.stepPushT
      exact h
  | Swap first second =>
      simp only [genStmt]
      repeat apply TrackEq.stepPushT
      exact h
termination_by sizeOf st

theorem genStmtList_track (isa : IndexOracle) (l : List RamStmt)
    (ea1 ea2 : Nat) {s t : GenState} (h : TrackEq s t) :
    TrackEq (genStmtList isa l ea1 s) (genStmtList isa l ea2 t) := by
  cases l with
  | nil => exact h
  | cons st sts =>
      exact genStmtList_track isa sts ea1 ea2 (genStmt_track isa st ea1 ea2 h)
termination_by sizeOf l

end

/-! ## Characterisations of the emitted word sequences. -/

theorem genExprList_append (a b : List RamExpr) (ea : Nat) (s : GenState) :
    genExprList (a ++ b) ea s = genExprList b ea (genExprList a ea s) := by
  induction a generalizing s with
  | nil => simp [genExprList]
  | cons e es ih => simp only [List.cons_append, genExprList]; exact ih _

/-- The classification loops visit exactly the defined entries, in
reverse column order. -/
theorem genPatternRev_eq (l : List RamExpr) (ea : Nat) (s : GenState) :
    genPatternRev l ea s
      = genExprList (l.reverse.filter (fun v => !isRamUndefValue v)) ea s := by
  induction l generalizing s with
  | nil => simp [genPatternRev, genExprList]
  | cons v vs ih =>
      simp only [genPatternRev, List.reverse_cons, List.filter_append,
        genExprList_append, ih]
      cases hv : isRamUndefValue v <;> simp [hv, genExprList]

theorem foldl_push_imm_code (g : Nat → Word) (l : List Nat) (s : GenState) :
    (l.foldl (fun t i => push t (g i)) s).code = s.code ++ l.map g := by
  induction l generalizing s with
  | nil => simp
  | cons x xs ih => simp [ih]

theorem emitExistenceCheckInst_code (s : GenState)
    (arity relId indexPos : Nat) (mask : List Nat) :
    (emitExistenceCheckInst s arity relId indexPos mask).code =
      s.code ++
        [Word.op (if numOfTypeMasks arity = 1 then
            LVMOp.LVM_ExistenceCheckOneArg else LVMOp.LVM_ExistenceCheck),
         Word.imm (Int.ofNat relId), Word.imm (Int.ofNat indexPos)] ++
        maskWords mask arity := by
  unfold emitExistenceCheckInst maskWords
  split <;> simp_all [foldl_push_imm_code]

theorem emitRangeIndexInst_code (s : GenState)
    (arity relId indexPos counterLabel : Nat) (mask : List Nat) :
    (emitRangeIndexInst s arity relId indexPos counterLabel mask).code =
      s.code ++
        [Word.op (if numOfTypeMasks arity = 1 then
            LVMOp.LVM_ITER_InitRangeIndexOneArg else LVMOp.LVM_ITER_InitRangeIndex),
         Word.imm (Int.ofNat counterLabel), Word.imm (Int.ofNat relId),
         Word.imm (Int.ofNat indexPos)] ++
        maskWords mask arity := by
  unfold emitRangeIndexInst maskWords
  split <;> simp_all [foldl_push_imm_code]

/-- `arity/W + (arity%W != 0)` is the ceiling of arity/W. -/
theorem numOfTypeMasks_eq_ceil (arity : Nat) :
    numOfTypeMasks arity = (arity + RAM_DOMAIN_SIZE - 1) / RAM_DOMAIN_SIZE := by
  unfold numOfTypeMasks RAM_DOMAIN_SIZE
  split <;> omega

@[simp] theorem maskWords_length (mask : List Nat) (arity : Nat) :
    (maskWords mask arity).length = numOfTypeMasks arity := by
  simp [maskWords]

/-! ## Bit-level characterisation of the packed type mask. -/

/-- Value and bits of the inner mask-packing loop: the accumulated word
stays below `2 ^ n` and its bit k records exactly whether iteration k ran
the `types |= typeMask[...] << k` update with a set mask entry. -/
theorem foldl_orShift_spec (b : Nat → Nat) (p : Nat → Prop)
    [DecidablePred p] (hb : ∀ j, b j ≤ 1) (n : Nat) :
    ((List.range n).foldl
        (fun a j => if p j then a ||| (b j <<< j) else a) 0 < 2 ^ n)
    ∧ ∀ k, ((List.range n).foldl
        (fun a j => if p j then a ||| (b j <<< j) else a) 0).testBit k
        = (decide (k < n) && (decide (p k) && (b k == 1))) := by
  induction n with
  | zero => simp
  | succ n ih =>
      obtain ⟨hlt, hbit⟩ := ih
      rw [List.range_succ, List.foldl_append]
      set A := (List.range n).foldl
        (fun a j => if p j then a ||| (b j <<< j) else a) 0 with hA
      simp only [List.foldl_cons, List.foldl_nil]
      have hAn : ∀ k, n ≤ k → A.testBit k = false := by
        intro k hk
        exact Nat.testBit_lt_two_pow (lt_of_lt_of_le hlt
          (Nat.pow_le_pow_right (by norm_num) hk))
      by_cases hp : p n
      · rw [if_pos hp]
        constructor
        · refine Nat.or_lt_two_pow (lt_trans hlt (Nat.pow_lt_pow_right
            (by norm_num) (Nat.lt_succ_self n))) ?_
          calc b n <<< n = b n * 2 ^ n := Nat.shiftLeft_eq _ _
            _ ≤ 1 * 2 ^ n := Nat.mul_le_mul_right _ (hb n)
            _ < 2 ^ (n + 1) := by rw [one_mul, pow_succ]; omega
        · intro k
          rw [Nat.testBit_or, hbit k, Nat.testBit_shiftLeft]
          rcases Nat.lt_trichotomy k n with hk | hk | hk
          · have : ¬ n ≤ k := by omega
            simp [hk, this, Nat.lt_succ_of_lt hk]
          · subst hk
            have h0 : A.testBit k = false := hAn k le_rfl
            rcases Nat.le_one_iff_eq_zero_or_eq_one.mp (hb k) with h | h <;>
              simp [h0, h, hp, Nat.lt_irrefl]
          · have h0 : A.testBit k = false := hAn k (le_of_lt hk)
            have h1 : (b n).testBit (k - n) = false := by
              rcases Nat.le_one_iff_eq_zero_or_eq_one.mp (hb n) with h | h
              · simp [h]
              · rw [h]
                have hne : k - n ≠ 0 := by omega
                rcases Nat.exists_eq_succ_of_ne_zero hne with ⟨m, hm⟩
                rw [hm, Nat.testBit_succ]
                simp
            have h2 : ¬ k < n + 1 := by omega
            simp [h0, h1, h2, Nat.lt_asymm hk]
      · rw [if_neg hp]
        constructor
        · exact lt_trans hlt (Nat.pow_lt_pow_right (by norm_num)
            (Nat.lt_succ_self n))
        · intro k
          rw [hbit k]
          rcases Nat.lt_trichotomy k n with hk | hk | hk
          · simp [hk, Nat.lt_succ_of_lt hk]
          · subst hk
            simp [hp, Nat.lt_irrefl]
          · have : ¬ k < n + 1 := by omega
            simp [hAn k (le_of_lt hk), this, Nat.lt_asymm hk]

theorem typeMaskOf_le_one (values : List RamExpr) :
    ∀ x ∈ typeMaskOf values, x ≤ 1 := by
  intro x hx
  simp only [typeMaskOf, List.mem_map] at hx
  obtain ⟨v, _, hv⟩ := hx
  split at hv <;> omega

/-- Bit j of packed word i is set exactly when column `i*W + j` exists
and its type-mask entry is 1. -/
theorem packTypeMask_testBit (mask : List Nat) (arity i : Nat)
    (hm : ∀ x ∈ mask, x ≤ 1) (j : Nat) :
    (packTypeMask mask arity i).testBit j
      = (decide (j < RAM_DOMAIN_SIZE) &&
          (decide (i * RAM_DOMAIN_SIZE + j < arity) &&
            (mask.getD (i * RAM_DOMAIN_SIZE + j) 0 == 1))) := by
  have hb : ∀ k, mask.getD (i * RAM_DOMAIN_SIZE + k) 0 ≤ 1 := by
    intro k
    rcases Nat.lt_or_ge (i * RAM_DOMAIN_SIZE + k) mask.length with h | h
    · rw [List.getD_eq_getElem?_getD, List.getElem?_eq_getElem h,
        Option.getD_some]
      exact hm _ (List.getElem_mem h)
    · rw [List.getD_eq_default _ _ h]
      omega
  exact (foldl_orShift_spec (fun k => mask.getD (i * RAM_DOMAIN_SIZE + k) 0)
    (fun k => i * RAM_DOMAIN_SIZE + k < arity) hb RAM_DOMAIN_SIZE).2 j

/-- The three words of the visitTupleOperation prelude. -/
theorem searchHeader_code (s : GenState) (pt : String) :
    (searchHeader s pt).code = s.code ++
      [Word.op LVMOp.LVM_Search,
       Word.imm (Int.ofNat (if pt.isEmpty then 0 else 1)),
       Word.imm (Int.ofNat (s.symbolTable.lookup pt).1)] := by
  simp [searchHeader]

/-- The two seed words, by aggregate function. -/
theorem aggSeed_code (fn : AggFunc) (s : GenState) :
    (aggSeed fn s).code = s.code ++
      [Word.op LVMOp.LVM_Number,
       Word.imm (if fn = AggFunc.MIN then MAX_RAM_DOMAIN
         else if fn = AggFunc.MAX then MIN_RAM_DOMAIN else 0)] := by
  cases fn <;> simp [aggSeed]

/-- The eight words of the MIN/MAX no-match guard. -/
theorem aggGuard_code (fn : AggFunc) (tid L2 : Nat) (s : GenState) :
    (aggGuard fn tid L2 s).code = s.code ++
      [Word.op LVMOp.LVM_TupleElement, Word.imm (Int.ofNat tid), Word.imm 0,
       Word.op LVMOp.LVM_Number,
       Word.imm (if fn = AggFunc.MIN then MAX_RAM_DOMAIN else MIN_RAM_DOMAIN),
       Word.op LVMOp.LVM_OP_EQ, Word.op LVMOp.LVM_Jmpnz,
       Word.imm (Int.ofNat (lookupAddress s L2))] := by
  simp [aggGuard, lookupAddress]

/-- Off the COUNT fast path, everything the aggregate kernel emits comes
after the two seed words. -/
theorem genAggKernel_ext_from_seed (isa : IndexOracle) (fn : AggFunc)
    (expr : RamExpr) (cond : RamCond) (tid : Nat) (ptext : String)
    (nested : RamOp) (counterLabel L1 L2 exitAddress : Nat) (s : GenState)
    (hfast : ¬(fn = AggFunc.COUNT ∧ isTrueCond cond = true)) :
    codeExt (aggSeed fn s)
      (genAggKernel isa fn expr cond tid ptext nested counterLabel L1 L2
        exitAddress s) := by
  simp only [genAggKernel]
  rw [if_neg hfast]
  apply codeExt.stepSet
  refine codeExt.trans ?_ (genOp_ext isa nested _ _)
  repeat apply codeExt.stepPush
  split
  · apply codeExt.stepAggGuard
    repeat apply codeExt.stepPush
    apply codeExt.stepAggStep
    split
    · split
      · repeat apply codeExt.stepPush
        exact codeExt.refl _
      · repeat apply codeExt.stepPush
        apply codeExt.stepCond
        repeat apply codeExt.stepPush
        exact codeExt.refl _
    · apply codeExt.stepExpr
      split
      · repeat apply codeExt.stepPush
        exact codeExt.refl _
      · repeat apply codeExt.stepPush
        apply codeExt.stepCond
        repeat apply codeExt.stepPush
        exact codeExt.refl _
  · repeat apply codeExt.stepPush
    apply codeExt.stepAggStep
    split
    · split
      · repeat apply codeExt.stepPush
        exact codeExt.refl _
      · repeat apply codeExt.stepPush
        apply codeExt.stepCond
        repeat apply codeExt.stepPush
        exact codeExt.refl _
    · apply codeExt.stepExpr
      split
      · repeat apply codeExt.stepPush
        exact codeExt.refl _
      · repeat apply codeExt.stepPush
        apply codeExt.stepCond
        repeat apply codeExt.stepPush
        exact codeExt.refl _

/-! # The claims -/

/-- Claim C1 (amended): the two traversals of the constructor are
deterministic in every tracked allocator: they emit streams of the same
length, identical I/O-sidetable contents, and allocate identical counts
of iterator slots, timer slots and labels (so every label resolved in
pass 1 names the same offset in pass 2) — but NOT identical stream
contents: forward-branch operands read the addressMap, which is empty
during pass 1 and populated during pass 2. -/
theorem C1_pass_determinism_amended (isa : IndexOracle) (entry : RamStmt)
    (enc : EncoderState) (sym : SymTab) :
    (generatorPass1 isa entry enc sym).code.length
      = (generatorPass2 isa entry enc sym).code.length ∧
    (generatorPass1 isa entry enc sym).ioDirectives
      = (generatorPass2 isa entry enc sym).ioDirectives ∧
    (generatorPass1 isa entry enc sym).currentAddressLabel
      = (generatorPass2 isa entry enc sym).currentAddressLabel ∧
    (generatorPass1 isa entry enc sym).iteratorIndex
      = (generatorPass2 isa entry enc sym).iteratorIndex ∧
    (generatorPass1 isa entry enc sym).timerIndex
      = (generatorPass2 isa entry enc sym).timerIndex :=
  genStmt_track isa entry 0 0
    (s := initState enc sym)
    (t := cleanUp (generatorPass1 isa entry enc sym))
    ⟨rfl, rfl, rfl, rfl, rfl⟩

/-- Index oracle giving lex-order 0 to every search signature. -/
def isa0 : IndexOracle := ⟨fun _ _ => 0⟩

/-- A one-query program with a filter: the filter's Jmpez reads the
address of a label that is only resolved at the end of the visit. -/
def cexEntry : RamStmt :=
  RamStmt.Query (RamOp.Filter RamCond.RTrue ""
    (RamOp.Project ⟨"A", 1, RelationRepresentation.DEFAULT⟩ []))

/-- Claim C1, counterexample: on `cexEntry` the pass-1 stream carries 0
as the Jmpez operand (unresolved label) whereas the pass-2 stream
carries the resolved offset 9 — the two passes do NOT produce identical
stream contents. -/
theorem C1_counterexample_streams_differ :
    (generatorPass1 isa0 cexEntry ⟨[], []⟩ ⟨[]⟩).code =
      [Word.op LVMOp.LVM_Query, Word.op LVMOp.LVM_Filter, Word.imm 0,
       Word.op LVMOp.LVM_True, Word.op LVMOp.LVM_Jmpez, Word.imm 0,
       Word.op LVMOp.LVM_Project, Word.imm 1, Word.imm 0] ∧
    (generatorPass2 isa0 cexEntry ⟨[], []⟩ ⟨[]⟩).code =
      [Word.op LVMOp.LVM_Query, Word.op LVMOp.LVM_Filter, Word.imm 0,
       Word.op LVMOp.LVM_True, Word.op LVMOp.LVM_Jmpez, Word.imm 9,
       Word.op LVMOp.LVM_Project, Word.imm 1, Word.imm 0] ∧
    (generatorPass1 isa0 cexEntry ⟨[], []⟩ ⟨[]⟩).code ≠
      (generatorPass2 isa0 cexEntry ⟨[], []⟩ ⟨[]⟩).code := by
  have h1 : (generatorPass1 isa0 cexEntry ⟨[], []⟩ ⟨[]⟩).code =
      [Word.op LVMOp.LVM_Query, Word.op LVMOp.LVM_Filter, Word.imm 0,
       Word.op LVMOp.LVM_True, Word.op LVMOp.LVM_Jmpez, Word.imm 0,
       Word.op LVMOp.LVM_Project, Word.imm 1, Word.imm 0] := by
    simp [generatorPass1, genStmt, genOp, genCond, genExprListRev, cexEntry,
      initState, push, pushOp, pushNat, pushInt, lookupSymG, SymTab.lookup,
      encodeRelG, EncoderState.encodeRelation, bumpLabel, lookupAddress,
      setAddress, codeSize]
  have h2 : (generatorPass2 isa0 cexEntry ⟨[], []⟩ ⟨[]⟩).code =
      [Word.op LVMOp.LVM_Query, Word.op LVMOp.LVM_Filter, Word.imm 0,
       Word.op LVMOp.LVM_True, Word.op LVMOp.LVM_Jmpez, Word.imm 9,
       Word.op LVMOp.LVM_Project, Word.imm 1, Word.imm 0] := by
    simp [generatorPass2, generatorPass1, cleanUp, genStmt, genOp, genCond,
      genExprListRev, cexEntry, initState, push, pushOp, pushNat, pushInt,
      lookupSymG, SymTab.lookup, encodeRelG, EncoderState.encodeRelation,
      bumpLabel, lookupAddress, setAddress, codeSize]
  refine ⟨h1, h2, ?_⟩
  rw [h1, h2]
  decide

/-- Claim C2 (amended): cleanUp resets the stream, the I/O sidetable, the
iterator-slot and timer-slot counters AND the label counter to their
initial values; it preserves the label table (so labels resolved during
pass 1 retain their offsets), the encoder and the symbol table. -/
theorem C2_cleanUp_resets_all_allocators (s : GenState) :
    (cleanUp s).code = [] ∧
    (cleanUp s).ioDirectives = [] ∧
    (cleanUp s).iteratorIndex = 0 ∧
    (cleanUp s).timerIndex = 0 ∧
    (cleanUp s).currentAddressLabel = 0 ∧
    (cleanUp s).addressMap = s.addressMap ∧
    (∀ l, lookupAddress (cleanUp s) l = lookupAddress s l) ∧
    (cleanUp s).encoder = s.encoder ∧
    (cleanUp s).symbolTable = s.symbolTable :=
  ⟨rfl, rfl, rfl, rfl, rfl, rfl, fun _ => rfl, rfl, rfl⟩

/-- A generator state with a non-zero label counter, as left by pass 1. -/
def cexLabelState : GenState :=
  ⟨[Word.op LVMOp.LVM_True], [7], 5, [9, 4], 3, 2, ⟨[], []⟩, ⟨[]⟩⟩

/-- Claim C2, counterexample: cleanUp DOES reset the label counter
(`currentAddressLabel = 0;` in the source), refuting "does not reset the
label counter"; only the label table survives. -/
theorem C2_counterexample_label_counter_is_reset :
    cexLabelState.currentAddressLabel = 5 ∧
    (cleanUp cexLabelState).currentAddressLabel = 0 ∧
    (cleanUp cexLabelState).currentAddressLabel ≠
      cexLabelState.currentAddressLabel := by
  refine ⟨rfl, rfl, ?_⟩
  decide

/-- Claim C3: existence-check lowering trichotomy.  All columns free:
a negated emptiness check and no existence opcode.  All columns bound
(and non-empty): the bound values in reverse column order, then the
full-order contains opcode with the relation id and no type mask.
Mixed: the bound values in reverse column order, then a partial
existence check carrying the chosen index position, the relation id and
a type mask packed into ceil(arity / RAM_DOMAIN_SIZE) words where bit j
of word i answers for column i*W+j, with the dedicated single-word
opcode exactly when one mask word suffices. -/
theorem C3_existence_check_trichotomy (O : IndexOracle) (rel : RamRelation)
    (values : List RamExpr) (sg ea : Nat) (s : GenState)
    (hlen : values.length = rel.arity) :
    (values.all isRamUndefValue = true →
      (genCond O (RamCond.ExistenceCheck rel values sg) ea s).code
        = s.code ++ [Word.op LVMOp.LVM_EmptinessCheck,
            Word.imm (Int.ofNat (encodeRelG s rel).1),
            Word.op LVMOp.LVM_Negation]) ∧
    (values.all isRamUndefValue = false →
      values.all (fun v => !isRamUndefValue v) = true →
      (genCond O (RamCond.ExistenceCheck rel values sg) ea s).code
        = (genExprList values.reverse ea (encodeRelG s rel).2).code
            ++ [Word.op LVMOp.LVM_ContainCheck,
                Word.imm (Int.ofNat (encodeRelG s rel).1)]) ∧
    (values.all isRamUndefValue = false →
      values.all (fun v => !isRamUndefValue v) = false →
      ((genCond O (RamCond.ExistenceCheck rel values sg) ea s).code
        = (genExprList (values.reverse.filter (fun v => !isRamUndefValue v))
              ea (encodeRelG s rel).2).code
          ++ [Word.op (if numOfTypeMasks rel.arity = 1 then
                LVMOp.LVM_ExistenceCheckOneArg else LVMOp.LVM_ExistenceCheck),
              Word.imm (Int.ofNat (encodeRelG s rel).1),
              Word.imm (Int.ofNat (getIndexPos O rel sg))]
          ++ maskWords (typeMaskOf values) rel.arity) ∧
      (maskWords (typeMaskOf values) rel.arity).length
          = (rel.arity + RAM_DOMAIN_SIZE - 1) / RAM_DOMAIN_SIZE ∧
      (∀ i j, (packTypeMask (typeMaskOf values) rel.arity i).testBit j
          = (decide (j < RAM_DOMAIN_SIZE) &&
             decide (i * RAM_DOMAIN_SIZE + j < rel.arity) &&
             !isRamUndefValue
               (values.getD (i * RAM_DOMAIN_SIZE + j) RamExpr.UndefValue)))) := by
  refine ⟨?_, ?_, ?_⟩
  · intro hall
    have hnil : values.reverse.filter (fun v => !isRamUndefValue v) = [] := by
      rw [List.filter_eq_nil]
      intro a ha
      have := (List.all_eq_true.mp hall) a (List.mem_reverse.mp ha)
      simp [this]
    simp only [genCond]
    rw [if_pos hall]
    simp [genPatternRev_eq, hnil, genExprList, encodeRelG]
  · intro h1 h2
    have hself : values.reverse.filter (fun v => !isRamUndefValue v)
        = values.reverse := by
      rw [List.filter_eq_self]
      intro a ha
      exact (List.all_eq_true.mp h2) a (List.mem_reverse.mp ha)
    simp only [genCond]
    rw [if_neg (by simp [h1]), if_pos h2]
    simp [genPatternRev_eq, hself, encodeRelG]
  · intro h1 h2
    refine ⟨?_, ?_, ?_⟩
    · simp only [genCond]
      rw [if_neg (by simp [h1]), if_neg (by simp [h2])]
      rw [emitExistenceCheckInst_code, genPatternRev_eq]
    · rw [maskWords_length, numOfTypeMasks_eq_ceil]
    · intro i j
      rw [packTypeMask_testBit _ _ _ (typeMaskOf_le_one values) j]
      by_cases hk : i * RAM_DOMAIN_SIZE + j < rel.arity
      · have hk' : i * RAM_DOMAIN_SIZE + j < values.length := by omega
        have hmget : (typeMaskOf values).getD (i * RAM_DOMAIN_SIZE + j) 0
            = if isRamUndefValue (values.get ⟨i * RAM_DOMAIN_SIZE + j, hk'⟩)
              then 0 else 1 := by
          rw [typeMaskOf, List.getD_eq_getElem?_getD, List.getElem?_map,
            List.getElem?_eq_getElem hk']
          simp
        have hvget : values.getD (i * RAM_DOMAIN_SIZE + j) RamExpr.UndefValue
            = values.get ⟨i * RAM_DOMAIN_SIZE + j, hk'⟩ := by
          rw [List.getD_eq_getElem?_getD, List.getElem?_eq_getElem hk']
          simp
        rw [hmget, hvget]
        cases hu : isRamUndefValue (values.get ⟨i * RAM_DOMAIN_SIZE + j, hk'⟩) <;>
          simp [hu, hk, Bool.and_assoc]
      · simp [hk]

theorem C3_witness :
    (([RamExpr.Number 7, RamExpr.UndefValue] : List RamExpr).length
        = (⟨"R", 2, RelationRepresentation.DEFAULT⟩ : RamRelation).arity) ∧
    (([RamExpr.Number 7, RamExpr.UndefValue] : List RamExpr).all
        isRamUndefValue = false) ∧
    (([RamExpr.Number 7, RamExpr.UndefValue] : List RamExpr).all
        (fun v => !isRamUndefValue v) = false) ∧
    (genCond ⟨fun _ _ => 0⟩
        (RamCond.ExistenceCheck ⟨"R", 2, RelationRepresentation.DEFAULT⟩
          [RamExpr.Number 7, RamExpr.UndefValue] 1) 0
        (initState ⟨[], []⟩ ⟨[]⟩)).code =
      [Word.op LVMOp.LVM_Number, Word.imm 7,
       Word.op LVMOp.LVM_ExistenceCheckOneArg, Word.imm 0, Word.imm 0,
       Word.imm 1] := by
  refine ⟨by decide, by decide, by decide, ?_⟩
  have h := (C3_existence_check_trichotomy ⟨fun _ _ => 0⟩
      ⟨"R", 2, RelationRepresentation.DEFAULT⟩
      [RamExpr.Number 7, RamExpr.UndefValue] 1 0
      (initState ⟨[], []⟩ ⟨[]⟩) rfl).2.2 rfl rfl
  rw [h.1]
  have hmw : maskWords (typeMaskOf [RamExpr.Number 7, RamExpr.UndefValue]) 2
      = [Word.imm 1] := by decide
  simp [hmw, genExprList, genExpr, encodeRelG, EncoderState.encodeRelation,
    initState, push, pushOp, pushInt, pushNat, isRamUndefValue,
    numOfTypeMasks, RAM_DOMAIN_SIZE, getIndexPos]

/-- Claim C4: for every provenance existence check over a relation of
arity a (at least 2), the final two columns are skipped unconditionally:
the lowering depends only on the first a-2 pattern entries, classifies
exactly columns 0..a-3 (column 0 included), emits a negated emptiness
check when that prefix is all-free, otherwise emits the defined prefix
values in reverse column order followed by a partial existence check
whose mask marks a prefix column iff it is bound and always leaves the
two provenance columns unmarked. -/
theorem C4_provenance_skips_last_two (O : IndexOracle) (rel : RamRelation)
    (values values2 : List RamExpr) (sg ea : Nat) (s : GenState)
    (hlen : values.length = rel.arity) (ha : 2 ≤ rel.arity) :
    (values2.take (rel.arity - 2) = values.take (rel.arity - 2) →
      genCond O (RamCond.ProvenanceExistenceCheck rel values2 sg) ea s
        = genCond O (RamCond.ProvenanceExistenceCheck rel values sg) ea s) ∧
    ((values.take (rel.arity - 2)).length = rel.arity - 2) ∧
    ((values.take (rel.arity - 2)).all isRamUndefValue = true →
      (genCond O (RamCond.ProvenanceExistenceCheck rel values sg) ea s).code
        = s.code ++ [Word.op LVMOp.LVM_EmptinessCheck,
            Word.imm (Int.ofNat (encodeRelG s rel).1),
            Word.op LVMOp.LVM_Negation]) ∧
    ((values.take (rel.arity - 2)).all isRamUndefValue = false →
      (genCond O (RamCond.ProvenanceExistenceCheck rel values sg) ea s).code
        = (genExprList
              ((values.take (rel.arity - 2)).reverse.filter
                (fun v => !isRamUndefValue v)) ea (encodeRelG s rel).2).code
          ++ [Word.op (if numOfTypeMasks rel.arity = 1 then
                LVMOp.LVM_ExistenceCheckOneArg else LVMOp.LVM_ExistenceCheck),
              Word.imm (Int.ofNat (encodeRelG s rel).1),
              Word.imm (Int.ofNat (getIndexPos O rel sg))]
          ++ maskWords
              (typeMaskOf (values.take (rel.arity - 2))
                ++ List.replicate (rel.arity - (rel.arity - 2)) 0)
              rel.arity) ∧
    (∀ k, k < rel.arity →
      (typeMaskOf (values.take (rel.arity - 2))
          ++ List.replicate (rel.arity - (rel.arity - 2)) 0).getD k 0
        = if k < rel.arity - 2 then
            (if isRamUndefValue (values.getD k RamExpr.UndefValue) then 0
             else 1)
          else 0) := by
  have hmlen : (typeMaskOf (values.take (rel.arity - 2))).length
      = rel.arity - 2 := by
    simp [typeMaskOf, List.length_take]
    omega
  refine ⟨?_, ?_, ?_, ?_, ?_⟩
  · intro h
    simp only [genCond, h]
  · simp [List.length_take]
    omega
  · intro hall
    have hnil : (values.take (rel.arity - 2)).reverse.filter
        (fun v => !isRamUndefValue v) = [] := by
      rw [List.filter_eq_nil]
      intro a hmem
      have := (List.all_eq_true.mp hall) a (List.mem_reverse.mp hmem)
      simp [this]
    simp only [genCond]
    rw [if_pos hall]
    simp [genPatternRev_eq, hnil, genExprList, encodeRelG]
  · intro hns
    simp only [genCond]
    rw [if_neg (by simp [hns])]
    rw [emitExistenceCheckInst_code, genPatternRev_eq]
  · intro k hk
    by_cases hk2 : k < rel.arity - 2
    · have hkm : k < (typeMaskOf (values.take (rel.arity - 2))).length := by
        omega
      have hkt : k < (values.take (rel.arity - 2)).length := by
        simp [List.length_take]
        omega
      have hkv : k < values.length := by omega
      rw [if_pos hk2, List.getD_eq_getElem?_getD,
        List.getElem?_append_left hkm, typeMaskOf, List.getElem?_map,
        List.getElem?_take_of_lt hk2, List.getElem?_eq_getElem hkv]
      rw [List.getD_eq_getElem?_getD, List.getElem?_eq_getElem hkv]
      simp
    · have hge : (typeMaskOf (values.take (rel.arity - 2))).length ≤ k := by
        omega
      rw [if_neg hk2, List.getD_eq_getElem?_getD,
        List.getElem?_append_right hge, hmlen]
      rw [List.getElem?_replicate, if_pos (by omega)]
      simp

theorem C4_witness :
    (([RamExpr.UndefValue, RamExpr.Number 3, RamExpr.Number 4] :
        List RamExpr).length
      = (⟨"P", 3, RelationRepresentation.DEFAULT⟩ : RamRelation).arity) ∧
    (2 ≤ (⟨"P", 3, RelationRepresentation.DEFAULT⟩ : RamRelation).arity) ∧
    (([RamExpr.UndefValue, RamExpr.Number 3, RamExpr.Number 4] :
        List RamExpr).take 1).all isRamUndefValue = true ∧
    (genCond ⟨fun _ _ => 0⟩
        (RamCond.ProvenanceExistenceCheck
          ⟨"P", 3, RelationRepresentation.DEFAULT⟩
          [RamExpr.UndefValue, RamExpr.Number 3, RamExpr.Number 4] 0) 0
        (initState ⟨[], []⟩ ⟨[]⟩)).code =
      [Word.op LVMOp.LVM_EmptinessCheck, Word.imm 0,
       Word.op LVMOp.LVM_Negation] := by
  refine ⟨by decide, by decide, by decide, ?_⟩
  have h := (C4_provenance_skips_last_two ⟨fun _ _ => 0⟩
      ⟨"P", 3, RelationRepresentation.DEFAULT⟩
      [RamExpr.UndefValue, RamExpr.Number 3, RamExpr.Number 4]
      [] 0 0 (initState ⟨[], []⟩ ⟨[]⟩) rfl (by decide)).2.2.1 (by decide)
  rw [h]
  simp [initState, encodeRelG, EncoderState.encodeRelation]

/-- Claim C5: off the COUNT fast path, an aggregate — and likewise an
indexed aggregate — seeds its accumulator with the first two kernel
words: min with the maximum domain value, max with the minimum domain
value, count and sum with 0 (for the plain aggregate these sit right
after the fixed 4-word prelude; for the indexed aggregate after the
opcode and the variable-length pattern/range-init prefix).  For min/max
both visitors emit, immediately after LVM_Aggregate_Return and before
the nested operation's search header, a guard that reloads the result
slot, compares it with the very seed constant, and Jmpnz-jumps on the
address recorded for the end label L2; the closing setAddress resolves
that label to the end of the whole aggregate body, so the resolved jump
(read in the second pass) skips the nested operation. -/
theorem C5_aggregate_seed_and_guard (isa : IndexOracle) (fn : AggFunc)
    (rel : RamRelation) (patterns : List RamExpr) (sg : Nat)
    (expr : RamExpr) (cond : RamCond) (tid : Nat)
    (ptext : String) (nested : RamOp) (ea : Nat) (s : GenState)
    (hfast : ¬(fn = AggFunc.COUNT ∧ isTrueCond cond = true)) :
    (∃ t, (genOp isa (RamOp.Aggregate fn rel expr cond tid ptext nested) ea
        s).code
      = s.code ++ [Word.op LVMOp.LVM_Aggregate,
          Word.op LVMOp.LVM_ITER_InitFullIndex,
          Word.imm (Int.ofNat s.iteratorIndex),
          Word.imm (Int.ofNat (s.encoder.encodeRelation rel).1),
          Word.op LVMOp.LVM_Number,
          Word.imm (if fn = AggFunc.MIN then MAX_RAM_DOMAIN
            else if fn = AggFunc.MAX then MIN_RAM_DOMAIN else 0)] ++ t) ∧
    ((fn = AggFunc.MIN ∨ fn = AggFunc.MAX) →
      ∃ u jt t, (genOp isa (RamOp.Aggregate fn rel expr cond tid ptext
          nested) ea s).code
        = u ++ [Word.op LVMOp.LVM_Aggregate_Return, Word.imm (Int.ofNat tid),
            Word.op LVMOp.LVM_TupleElement, Word.imm (Int.ofNat tid),
            Word.imm 0, Word.op LVMOp.LVM_Number,
            Word.imm (if fn = AggFunc.MIN then MAX_RAM_DOMAIN
              else MIN_RAM_DOMAIN),
            Word.op LVMOp.LVM_OP_EQ, Word.op LVMOp.LVM_Jmpnz,
            Word.imm (Int.ofNat jt)]
          ++ Word.op LVMOp.LVM_Search :: t) ∧
    lookupAddress
        (genOp isa (RamOp.Aggregate fn rel expr cond tid ptext nested) ea s)
        (s.currentAddressLabel + 1)
      = (genOp isa (RamOp.Aggregate fn rel expr cond tid ptext nested) ea
          s).code.length ∧
    (∃ pre t, (genOp isa (RamOp.IndexAggregate fn rel patterns sg expr cond
        tid ptext nested) ea s).code
      = s.code ++ Word.op LVMOp.LVM_IndexAggregate :: pre
        ++ [Word.op LVMOp.LVM_Number,
            Word.imm (if fn = AggFunc.MIN then MAX_RAM_DOMAIN
              else if fn = AggFunc.MAX then MIN_RAM_DOMAIN else 0)] ++ t) ∧
    ((fn = AggFunc.MIN ∨ fn = AggFunc.MAX) →
      ∃ u jt t, (genOp isa (RamOp.IndexAggregate fn rel patterns sg expr
          cond tid ptext nested) ea s).code
        = u ++ [Word.op LVMOp.LVM_Aggregate_Return, Word.imm (Int.ofNat tid),
            Word.op LVMOp.LVM_TupleElement, Word.imm (Int.ofNat tid),
            Word.imm 0, Word.op LVMOp.LVM_Number,
            Word.imm (if fn = AggFunc.MIN then MAX_RAM_DOMAIN
              else MIN_RAM_DOMAIN),
            Word.op LVMOp.LVM_OP_EQ, Word.op LVMOp.LVM_Jmpnz,
            Word.imm (Int.ofNat jt)]
          ++ Word.op LVMOp.LVM_Search :: t) ∧
    lookupAddress
        (genOp isa (RamOp.IndexAggregate fn rel patterns sg expr cond tid
          ptext nested) ea s)
        (s.currentAddressLabel + 1)
      = (genOp isa (RamOp.IndexAggregate fn rel patterns sg expr cond tid
          ptext nested) ea s).code.length := by
  have hker : (fn = AggFunc.MIN ∨ fn = AggFunc.MAX) →
      ∀ (b : GenState) (c l1 l2 : Nat),
        ∃ u jt t, (genAggKernel isa fn expr cond tid ptext nested c l1 l2 ea
            b).code
          = u ++ [Word.op LVMOp.LVM_Aggregate_Return,
              Word.imm (Int.ofNat tid),
              Word.op LVMOp.LVM_TupleElement, Word.imm (Int.ofNat tid),
              Word.imm 0, Word.op LVMOp.LVM_Number,
              Word.imm (if fn = AggFunc.MIN then MAX_RAM_DOMAIN
                else MIN_RAM_DOMAIN),
              Word.op LVMOp.LVM_OP_EQ, Word.op LVMOp.LVM_Jmpnz,
              Word.imm (Int.ofNat jt)]
            ++ Word.op LVMOp.LVM_Search :: t := by
    intro hmm b c l1 l2
    simp only [genAggKernel]
    rw [if_neg hfast, if_pos hmm]
    suffices h2 : ∀ (g : GenState) (lbl v : Nat),
        ∃ u jt t, (setAddress (genOp isa nested ea (searchHeader
            (aggGuard fn tid l2
              (pushNat (pushOp g LVMOp.LVM_Aggregate_Return) tid)) ptext))
            lbl v).code
          = u ++ [Word.op LVMOp.LVM_Aggregate_Return,
              Word.imm (Int.ofNat tid),
              Word.op LVMOp.LVM_TupleElement, Word.imm (Int.ofNat tid),
              Word.imm 0, Word.op LVMOp.LVM_Number,
              Word.imm (if fn = AggFunc.MIN then MAX_RAM_DOMAIN
                else MIN_RAM_DOMAIN),
              Word.op LVMOp.LVM_OP_EQ, Word.op LVMOp.LVM_Jmpnz,
              Word.imm (Int.ofNat jt)]
            ++ Word.op LVMOp.LVM_Search :: t by
      exact h2 _ _ _
    intro g lbl v
    obtain ⟨l, hl⟩ := genOp_ext isa nested ea (searchHeader
      (aggGuard fn tid l2 (pushNat (pushOp g LVMOp.LVM_Aggregate_Return) tid))
      ptext)
    refine ⟨g.code,
      lookupAddress (pushNat (pushOp g LVMOp.LVM_Aggregate_Return) tid) l2,
      Word.imm (Int.ofNat (if ptext.isEmpty then 0 else 1)) ::
        Word.imm (Int.ofNat ((g.symbolTable.lookup ptext).1)) :: l, ?_⟩
    rw [setAddress_code, hl, searchHeader_code, aggGuard_code]
    simp [aggGuard]
  refine ⟨?_, ?_, ?_, ?_, ?_, ?_⟩
  · suffices h : ∀ (b : GenState) (c l1 l2 : Nat),
        b.code = s.code ++ [Word.op LVMOp.LVM_Aggregate,
          Word.op LVMOp.LVM_ITER_InitFullIndex,
          Word.imm (Int.ofNat s.iteratorIndex),
          Word.imm (Int.ofNat (s.encoder.encodeRelation rel).1)] →
        ∃ t, (genAggKernel isa fn expr cond tid ptext nested c l1 l2 ea
            b).code
          = s.code ++ [Word.op LVMOp.LVM_Aggregate,
              Word.op LVMOp.LVM_ITER_InitFullIndex,
              Word.imm (Int.ofNat s.iteratorIndex),
              Word.imm (Int.ofNat (s.encoder.encodeRelation rel).1),
              Word.op LVMOp.LVM_Number,
              Word.imm (if fn = AggFunc.MIN then MAX_RAM_DOMAIN
                else if fn = AggFunc.MAX then MIN_RAM_DOMAIN else 0)] ++ t by
      simp only [genOp]
      exact h _ _ _ _ (by simp)
    intro b c l1 l2 hb
    obtain ⟨l, hl⟩ := (genAggKernel_ext_from_seed isa fn expr cond tid ptext
      nested c l1 l2 ea b hfast)
    refine ⟨l, ?_⟩
    rw [hl, aggSeed_code, hb]
    simp
  · intro hmm
    simp only [genOp]
    exact hker hmm _ _ _ _
  · simp only [genOp, genAggKernel, pushOp_eq, push_currentAddressLabel,
      bumpLabel_currentAddressLabel, bumpIterator_currentAddressLabel,
      Nat.add_sub_cancel]
    rw [lookupAddress_setAddress_self]
    simp [codeSize]
  · suffices h : ∀ (b : GenState) (c l1 l2 : Nat),
        codeExt (pushOp s LVMOp.LVM_IndexAggregate) b →
        ∃ pre t, (genAggKernel isa fn expr cond tid ptext nested c l1 l2 ea
            b).code
          = s.code ++ Word.op LVMOp.LVM_IndexAggregate :: pre
            ++ [Word.op LVMOp.LVM_Number,
                Word.imm (if fn = AggFunc.MIN then MAX_RAM_DOMAIN
                  else if fn = AggFunc.MAX then MIN_RAM_DOMAIN else 0)]
            ++ t by
      simp only [genOp]
      refine h _ _ _ _ ?_
      split
      · repeat apply codeExt.stepPush
        apply codeExt.stepPattern
        exact codeExt.base rfl
      · apply codeExt.stepEmitRange
        apply codeExt.stepPattern
        exact codeExt.base rfl
    intro b c l1 l2 hb
    obtain ⟨w, hw⟩ := hb
    obtain ⟨l, hl⟩ := (genAggKernel_ext_from_seed isa fn expr cond tid ptext
      nested c l1 l2 ea b hfast)
    refine ⟨w, l, ?_⟩
    rw [hl, aggSeed_code, hw]
    simp
  · intro hmm
    simp only [genOp]
    exact hker hmm _ _ _ _
  · simp only [genOp, genAggKernel, pushOp_eq, push_currentAddressLabel,
      bumpLabel_currentAddressLabel, bumpIterator_currentAddressLabel,
      Nat.add_sub_cancel]
    rw [lookupAddress_setAddress_self]
    simp [codeSize]

theorem C5_witness :
    (¬(AggFunc.MIN = AggFunc.COUNT ∧ isTrueCond RamCond.RTrue = true)) ∧
    (AggFunc.MIN = AggFunc.MIN ∨ AggFunc.MIN = AggFunc.MAX) ∧
    (∃ t, (genOp ⟨fun _ _ => 0⟩
        (RamOp.Aggregate AggFunc.MIN ⟨"A", 1, RelationRepresentation.DEFAULT⟩
          (RamExpr.TupleElement 0 0) RamCond.RTrue 0 ""
          (RamOp.Project ⟨"B", 1, RelationRepresentation.DEFAULT⟩ [])) 0
        (initState ⟨[], []⟩ ⟨[]⟩)).code
      = (initState ⟨[], []⟩ ⟨[]⟩).code ++
          [Word.op LVMOp.LVM_Aggregate, Word.op LVMOp.LVM_ITER_InitFullIndex,
           Word.imm 0, Word.imm 0, Word.op LVMOp.LVM_Number,
           Word.imm MAX_RAM_DOMAIN] ++ t) ∧
    (∃ u jt t, (genOp ⟨fun _ _ => 0⟩
        (RamOp.Aggregate AggFunc.MIN ⟨"A", 1, RelationRepresentation.DEFAULT⟩
          (RamExpr.TupleElement 0 0) RamCond.RTrue 0 ""
          (RamOp.Project ⟨"B", 1, RelationRepresentation.DEFAULT⟩ [])) 0
        (initState ⟨[], []⟩ ⟨[]⟩)).code
      = u ++ [Word.op LVMOp.LVM_Aggregate_Return, Word.imm 0,
          Word.op LVMOp.LVM_TupleElement, Word.imm 0, Word.imm 0,
          Word.op LVMOp.LVM_Number, Word.imm MAX_RAM_DOMAIN,
          Word.op LVMOp.LVM_OP_EQ, Word.op LVMOp.LVM_Jmpnz,
          Word.imm (Int.ofNat jt)]
        ++ Word.op LVMOp.LVM_Search :: t) ∧
    (∃ pre t, (genOp ⟨fun _ _ => 0⟩
        (RamOp.IndexAggregate AggFunc.MIN
          ⟨"A", 1, RelationRepresentation.DEFAULT⟩ [RamExpr.UndefValue] 0
          (RamExpr.TupleElement 0 0) RamCond.RTrue 0 ""
          (RamOp.Project ⟨"B", 1, RelationRepresentation.DEFAULT⟩ [])) 0
        (initState ⟨[], []⟩ ⟨[]⟩)).code
      = (initState ⟨[], []⟩ ⟨[]⟩).code
        ++ Word.op LVMOp.LVM_IndexAggregate :: pre
        ++ [Word.op LVMOp.LVM_Number, Word.imm MAX_RAM_DOMAIN] ++ t) ∧
    (∃ u jt t, (genOp ⟨fun _ _ => 0⟩
        (RamOp.IndexAggregate AggFunc.MIN
          ⟨"A", 1, RelationRepresentation.DEFAULT⟩ [RamExpr.UndefValue] 0
          (RamExpr.TupleElement 0 0) RamCond.RTrue 0 ""
          (RamOp.Project ⟨"B", 1, RelationRepresentation.DEFAULT⟩ [])) 0
        (initState ⟨[], []⟩ ⟨[]⟩)).code
      = u ++ [Word.op LVMOp.LVM_Aggregate_Return, Word.imm 0,
          Word.op LVMOp.LVM_TupleElement, Word.imm 0, Word.imm 0,
          Word.op LVMOp.LVM_Number, Word.imm MAX_RAM_DOMAIN,
          Word.op LVMOp.LVM_OP_EQ, Word.op LVMOp.LVM_Jmpnz,
          Word.imm (Int.ofNat jt)]
        ++ Word.op LVMOp.LVM_Search :: t) := by
  have h := C5_aggregate_seed_and_guard ⟨fun _ _ => 0⟩ AggFunc.MIN
    ⟨"A", 1, RelationRepresentation.DEFAULT⟩ [RamExpr.UndefValue] 0
    (RamExpr.TupleElement 0 0)
    RamCond.RTrue 0 "" (RamOp.Project ⟨"B", 1, RelationRepresentation.DEFAULT⟩
      []) 0 (initState ⟨[], []⟩ ⟨[]⟩) (by simp)
  exact ⟨by simp, Or.inl rfl, h.1, h.2.1 (Or.inl rfl), h.2.2.2.1,
    h.2.2.2.2.1 (Or.inl rfl)⟩

/-- Claim C6 (amended): a count aggregate with a trivially-true condition
does take the fast path — no loop skeleton, no seed constant, a single
LVM_Aggregate_COUNT reading the iterator's cardinality — but the claimed
stream is wrong on two points: LVM_Aggregate carries no slot operand
(the slot first appears after LVM_ITER_InitFullIndex), and the stream
does not end at the tuple id: the nested operation's search header and
body follow. -/
theorem C6_count_fast_path_amended (isa : IndexOracle) (rel : RamRelation)
    (expr : RamExpr) (cond : RamCond) (tid : Nat) (ptext : String)
    (nested : RamOp) (ea : Nat) (s : GenState)
    (hc : isTrueCond cond = true) :
    ∃ t, (genOp isa (RamOp.Aggregate AggFunc.COUNT rel expr cond tid ptext
        nested) ea s).code
      = s.code ++
        [Word.op LVMOp.LVM_Aggregate, Word.op LVMOp.LVM_ITER_InitFullIndex,
         Word.imm (Int.ofNat s.iteratorIndex),
         Word.imm (Int.ofNat (s.encoder.encodeRelation rel).1),
         Word.op LVMOp.LVM_Aggregate_COUNT,
         Word.imm (Int.ofNat s.iteratorIndex),
         Word.op LVMOp.LVM_Aggregate_Return, Word.imm (Int.ofNat tid)]
        ++ Word.op LVMOp.LVM_Search :: t := by
  suffices h : ∀ (b : GenState) (lbl v : Nat),
      b.code = s.code ++
        [Word.op LVMOp.LVM_Aggregate, Word.op LVMOp.LVM_ITER_InitFullIndex,
         Word.imm (Int.ofNat s.iteratorIndex),
         Word.imm (Int.ofNat (s.encoder.encodeRelation rel).1),
         Word.op LVMOp.LVM_Aggregate_COUNT,
         Word.imm (Int.ofNat s.iteratorIndex)] →
      ∃ t, (setAddress (genOp isa nested ea (searchHeader
          (pushNat (pushOp b LVMOp.LVM_Aggregate_Return) tid) ptext))
          lbl v).code
        = s.code ++
          [Word.op LVMOp.LVM_Aggregate, Word.op LVMOp.LVM_ITER_InitFullIndex,
           Word.imm (Int.ofNat s.iteratorIndex),
           Word.imm (Int.ofNat (s.encoder.encodeRelation rel).1),
           Word.op LVMOp.LVM_Aggregate_COUNT,
           Word.imm (Int.ofNat s.iteratorIndex),
           Word.op LVMOp.LVM_Aggregate_Return, Word.imm (Int.ofNat tid)]
          ++ Word.op LVMOp.LVM_Search :: t by
    simp only [genOp, genAggKernel]
    rw [if_pos (⟨trivial, hc⟩ : True ∧ isTrueCond cond = true)]
    rw [if_neg (by simp :
      ¬(AggFunc.COUNT = AggFunc.MIN ∨ AggFunc.COUNT = AggFunc.MAX))]
    exact h _ _ _ (by simp)
  intro b lbl v hb
  obtain ⟨l, hl⟩ := genOp_ext isa nested ea (searchHeader
    (pushNat (pushOp b LVMOp.LVM_Aggregate_Return) tid) ptext)
  refine ⟨Word.imm (Int.ofNat (if ptext.isEmpty then 0 else 1)) ::
    Word.imm (Int.ofNat ((b.symbolTable.lookup ptext).1)) :: l, ?_⟩
  rw [setAddress_code, hl, searchHeader_code]
  simp [hb]

theorem C6_witness :
    isTrueCond RamCond.RTrue = true ∧
    (∃ t, (genOp ⟨fun _ _ => 0⟩
        (RamOp.Aggregate AggFunc.COUNT ⟨"A", 1, RelationRepresentation.DEFAULT⟩
          (RamExpr.Number 0) RamCond.RTrue 0 ""
          (RamOp.Project ⟨"B", 1, RelationRepresentation.DEFAULT⟩ [])) 0
        (initState ⟨[], []⟩ ⟨[]⟩)).code
      = (initState ⟨[], []⟩ ⟨[]⟩).code ++
          [Word.op LVMOp.LVM_Aggregate, Word.op LVMOp.LVM_ITER_InitFullIndex,
           Word.imm 0, Word.imm 0, Word.op LVMOp.LVM_Aggregate_COUNT,
           Word.imm 0, Word.op LVMOp.LVM_Aggregate_Return, Word.imm 0]
          ++ Word.op LVMOp.LVM_Search :: t) :=
  ⟨rfl, C6_count_fast_path_amended ⟨fun _ _ => 0⟩
    ⟨"A", 1, RelationRepresentation.DEFAULT⟩ (RamExpr.Number 0) RamCond.RTrue
    0 "" (RamOp.Project ⟨"B", 1, RelationRepresentation.DEFAULT⟩ []) 0
    (initState ⟨[], []⟩ ⟨[]⟩) rfl⟩

/-- The count aggregate of the C6 stream check. -/
def aggCountCex : RamOp :=
  RamOp.Aggregate AggFunc.COUNT ⟨"R", 1, RelationRepresentation.DEFAULT⟩
    (RamExpr.Number 0) RamCond.RTrue 0 ""
    (RamOp.Project ⟨"B", 1, RelationRepresentation.DEFAULT⟩ [])

/-- Claim C6, counterexample: the actual fast-path stream for a concrete
count aggregate — no slot operand after LVM_Aggregate, and search header
plus nested operation after the tuple id — differs from the 9-word
stream the claim promises. -/
theorem C6_counterexample_stream :
    (genOp ⟨fun _ _ => 0⟩ aggCountCex 0 (initState ⟨[], []⟩ ⟨[]⟩)).code =
      [Word.op LVMOp.LVM_Aggregate, Word.op LVMOp.LVM_ITER_InitFullIndex,
       Word.imm 0, Word.imm 0, Word.op LVMOp.LVM_Aggregate_COUNT,
       Word.imm 0, Word.op LVMOp.LVM_Aggregate_Return, Word.imm 0,
       Word.op LVMOp.LVM_Search, Word.imm 0, Word.imm 0,
       Word.op LVMOp.LVM_Project, Word.imm 1, Word.imm 1] ∧
    (genOp ⟨fun _ _ => 0⟩ aggCountCex 0 (initState ⟨[], []⟩ ⟨[]⟩)).code ≠
      [Word.op LVMOp.LVM_Aggregate, Word.imm 0,
       Word.op LVMOp.LVM_ITER_InitFullIndex, Word.imm 0, Word.imm 0,
       Word.op LVMOp.LVM_Aggregate_COUNT, Word.imm 0,
       Word.op LVMOp.LVM_Aggregate_Return, Word.imm 0] := by
  have h : (genOp ⟨fun _ _ => 0⟩ aggCountCex 0 (initState ⟨[], []⟩ ⟨[]⟩)).code =
      [Word.op LVMOp.LVM_Aggregate, Word.op LVMOp.LVM_ITER_InitFullIndex,
       Word.imm 0, Word.imm 0, Word.op LVMOp.LVM_Aggregate_COUNT,
       Word.imm 0, Word.op LVMOp.LVM_Aggregate_Return, Word.imm 0,
       Word.op LVMOp.LVM_Search, Word.imm 0, Word.imm 0,
       Word.op LVMOp.LVM_Project, Word.imm 1, Word.imm 1] := by
    simp [aggCountCex, genOp, genAggKernel, genExprListRev, searchHeader,
      aggGuard, initState, push, pushOp, pushNat, pushInt, lookupSymG,
      SymTab.lookup, encodeRelG, EncoderState.encodeRelation, bumpLabel,
      bumpIterator, lookupAddress, setAddress, codeSize, isTrueCond,
      String.isEmpty]
  refine ⟨h, ?_⟩
  rw [h]
  decide

/-- Claim C7: a relation of arity above 12 is materialised as an indirect
relation regardless of its declared representation; at arity at most 12
the declared representation picks the kind (BTREE and DEFAULT both give
the direct b-tree relation, BRIE the brie-indexed one, EQREL the
equivalence relation). -/
theorem C7_storage_kind_selection (rel : RamRelation) :
    (rel.arity > 12 →
      createRelation rel = some ⟨rel.arity, rel.name, LVMRelKind.indirect⟩) ∧
    (rel.arity ≤ 12 →
      (rel.representation = RelationRepresentation.BTREE →
        createRelation rel = some ⟨rel.arity, rel.name, LVMRelKind.direct⟩) ∧
      (rel.representation = RelationRepresentation.DEFAULT →
        createRelation rel = some ⟨rel.arity, rel.name, LVMRelKind.direct⟩) ∧
      (rel.representation = RelationRepresentation.BRIE →
        createRelation rel = some ⟨rel.arity, rel.name, LVMRelKind.brie⟩) ∧
      (rel.representation = RelationRepresentation.EQREL →
        createRelation rel = some ⟨rel.arity, rel.name, LVMRelKind.eqrel⟩)) := by
  constructor
  · intro h
    unfold createRelation
    rw [if_pos (by simpa [MAX_DIRECT_INDEX_SIZE] using h)]
  · intro h
    refine ⟨fun hr => ?_, fun hr => ?_, fun hr => ?_, fun hr => ?_⟩ <;>
      · unfold createRelation
        rw [if_neg (by simp [MAX_DIRECT_INDEX_SIZE]; omega), hr]

theorem C7_witness :
    (13 > 12) ∧
    createRelation ⟨"wide", 13, RelationRepresentation.BRIE⟩
      = some ⟨13, "wide", LVMRelKind.indirect⟩ ∧
    (2 ≤ 12) ∧
    createRelation ⟨"eq", 2, RelationRepresentation.EQREL⟩
      = some ⟨2, "eq", LVMRelKind.eqrel⟩ :=
  ⟨by decide,
   (C7_storage_kind_selection ⟨"wide", 13, RelationRepresentation.BRIE⟩).1
     (by decide),
   by decide,
   ((C7_storage_kind_selection ⟨"eq", 2, RelationRepresentation.EQREL⟩).2
     (by decide)).2.2.2 rfl⟩

/-- Claim C8: interning a relation twice returns the id of the first call
and leaves the descriptor count unchanged; a genuinely first call (name
not yet interned) appends exactly one descriptor, and — when the map and
the descriptor vector are in sync — returns the descriptor's dense
index. -/
theorem C8_encoder_idempotent (st : EncoderState) (rel : RamRelation) :
    ((st.encodeRelation rel).2.encodeRelation rel).1
      = (st.encodeRelation rel).1 ∧
    ((st.encodeRelation rel).2.encodeRelation rel).2.getSize
      = (st.encodeRelation rel).2.getSize ∧
    (st.relNameToIndex.find? (fun q => q.1 = rel.name) = none →
      (st.encodeRelation rel).2.getSize = st.getSize + 1 ∧
      (st.relNameToIndex.length = st.relationMap.length →
        (st.encodeRelation rel).1 = st.getSize)) := by
  rcases hf : st.relNameToIndex.find? (fun q => q.1 = rel.name) with _ | p
  · have hsecond :
        (st.relNameToIndex ++ [(rel.name, st.relNameToIndex.length)]).find?
          (fun q => q.1 = rel.name)
          = some (rel.name, st.relNameToIndex.length) := by
      rw [List.find?_append, hf]
      simp
    constructor
    · simp [EncoderState.encodeRelation, hf, hsecond]
    constructor
    · simp [EncoderState.encodeRelation, hf, hsecond, EncoderState.getSize]
    · intro _
      constructor
      · simp [EncoderState.encodeRelation, hf, EncoderState.getSize]
      · intro hwf
        simp [EncoderState.encodeRelation, hf, EncoderState.getSize, hwf]
  · refine ⟨?_, ?_, ?_⟩
    · simp [EncoderState.encodeRelation, hf]
    · simp [EncoderState.encodeRelation, hf]
    · intro hnone
      rw [hf] at hnone
      cases hnone

theorem C8_witness :
    (([] : List (String × Nat)).find? (fun q => q.1 = "A") = none) ∧
    (((⟨[], []⟩ : EncoderState).encodeRelation
        ⟨"A", 1, RelationRepresentation.DEFAULT⟩).2.encodeRelation
        ⟨"A", 1, RelationRepresentation.DEFAULT⟩).1
      = ((⟨[], []⟩ : EncoderState).encodeRelation
        ⟨"A", 1, RelationRepresentation.DEFAULT⟩).1 ∧
    ((⟨[], []⟩ : EncoderState).encodeRelation
        ⟨"A", 1, RelationRepresentation.DEFAULT⟩).2.getSize
      = (⟨[], []⟩ : EncoderState).getSize + 1 := by
  refine ⟨rfl, ?_, ?_⟩
  · exact (C8_encoder_idempotent ⟨[], []⟩ ⟨"A", 1, RelationRepresentation.DEFAULT⟩).1
  · exact ((C8_encoder_idempotent ⟨[], []⟩
      ⟨"A", 1, RelationRepresentation.DEFAULT⟩).2.2 rfl).1

/-- Claim C9: the parallel statement is serialised: its emission is
exactly the in-order emission of its children — no LVM_Parallel opcode,
fork words, branch addresses or terminator; the empty parallel emits
nothing and the singleton parallel is indistinguishable from its child
(the whole generator state is the same). -/
theorem C9_parallel_serialised (isa : IndexOracle) (ea : Nat) (s : GenState) :
    (∀ stmts, genStmt isa (RamStmt.Parallel stmts) ea s
      = genStmtList isa stmts ea s) ∧
    genStmt isa (RamStmt.Parallel []) ea s = s ∧
    (∀ c, genStmt isa (RamStmt.Parallel [c]) ea s = genStmt isa c ea s) := by
  refine ⟨fun stmts => ?_, ?_, fun c => ?_⟩ <;>
    simp [genStmt, genStmtList]

/-- Claim C10: a narrow relation with a representation outside the four
handled enumerators makes createRelation return a null descriptor, which
encodeRelation stores at the fresh id without any diagnostic, so a later
decodeRelation of that id yields the null pointer. -/
theorem C10_unhandled_representation_null (st : EncoderState)
    (rel : RamRelation) (ha : rel.arity ≤ 12)
    (hr : rel.representation = RelationRepresentation.INFO)
    (hfresh : st.relNameToIndex.find? (fun q => q.1 = rel.name) = none)
    (hwf : st.relNameToIndex.length = st.relationMap.length) :
    createRelation rel = none ∧
    (st.encodeRelation rel).2.decodeRelation (st.encodeRelation rel).1
      = none ∧
    (st.encodeRelation rel).2.getSize = st.getSize + 1 := by
  have hcr : createRelation rel = none := by
    unfold createRelation
    rw [if_neg (by simp [MAX_DIRECT_INDEX_SIZE]; omega), hr]
  refine ⟨hcr, ?_, ?_⟩
  · simp [EncoderState.encodeRelation, hfresh, EncoderState.decodeRelation,
      hcr, hwf]
  · simp [EncoderState.encodeRelation, hfresh, EncoderState.getSize]

theorem C10_witness :
    ((⟨"info", 2, RelationRepresentation.INFO⟩ : RamRelation).arity ≤ 12) ∧
    (([] : List (String × Nat)).find? (fun q => q.1 = "info") = none) ∧
    createRelation ⟨"info", 2, RelationRepresentation.INFO⟩ = none ∧
    ((⟨[], []⟩ : EncoderState).encodeRelation
        ⟨"info", 2, RelationRepresentation.INFO⟩).2.decodeRelation
      ((⟨[], []⟩ : EncoderState).encodeRelation
        ⟨"info", 2, RelationRepresentation.INFO⟩).1 = none := by
  have h := C10_unhandled_representation_null ⟨[], []⟩
    ⟨"info", 2, RelationRepresentation.INFO⟩ (by decide) rfl rfl rfl
  exact ⟨by decide, rfl, h.1, h.2.1⟩

end LVM
